import Mathlib

/-!
# SSH certificate authority: revocation, CRL and roles

A shallow embedding of `builtin/logical/ssh/crl.go`: the revocation of an SSH
certificate by serial number (`revokeSSHCertificate`) and the rebuild of the
certificate revocation list (`buildCrl`), over an explicit model of the
key-value storage the Go code reaches through `req.Storage`; of the two entry
points to revocation (`pathRevokeWrite`, `secretCredsRevoke`) and the CRL read
(`pathFetchCrl`); and of the role store of `builtin/logical/sshca/path_role.go`
(`pathRoleCreate`, `pathRoleRead`, `getRole`).

Stateful code is written in state-passing style: every operation takes the
storage and returns its result together with the storage it leaves behind,
also when the result is an error.
-/

namespace Vault

/-! ## Values of the Go runtime -/

/-- A `time.Time`: the instant as seconds since the Unix epoch plus a nanosecond
part, and the zone offset (seconds east of UTC) the value is presented in. -/
structure Time where
  sec : Int
  nsec : Nat
  offset : Int
deriving DecidableEq, Repr

/-- The method `Time.UTC`: the same instant, presented in UTC. -/
def Time.UTC (t : Time) : Time :=
  { t with offset := 0 }

/-- The method `Time.Unix`: seconds elapsed since the Unix epoch. -/
def Time.Unix (t : Time) : Int :=
  t.sec

/-- Go errors as the code builds them: `errors.New` / `fmt.Errorf` / an error
handed up from storage (`plain`), and `errutil.InternalError` (`internal`). -/
inductive Error where
  | plain (msg : String)
  | internal (msg : String)
deriving DecidableEq, Repr

/-- The method `Error()` (what `%s` prints for an error). -/
def Error.text : Error → String
  | .plain msg => msg
  | .internal msg => msg

deriving instance DecidableEq for Except

/-- A value of a response's `Data` map. -/
inductive Value where
  | int (i : Int)
  | str (s : String)
  | bytes (b : String)
  | bool (b : Bool)
  | strMap (m : List (String × String))
deriving DecidableEq, Repr

/-- A `logical.Response`: its `Data` map, keys in the order the source lists them. -/
structure Response where
  Data : List (String × Value)
deriving DecidableEq, Repr

/-- A `logical.StorageEntry`. -/
structure StorageEntry where
  Key : String
  Value : String
deriving DecidableEq, Repr

/-- The record stored under `certs/<serial>` and `revoked/<serial>` (crl.go, lines 12-16). -/
structure sshCertificate where
  ValidBefore : Time
  Certificate : String
  Revocation : Time
deriving DecidableEq, Repr

/-- Library functions the code calls and that are not part of the repository:
the JSON codec of `sshCertificate` records (`StorageEntry.DecodeJSON`, the
encoding half of `logical.StorageEntryJSON`) and `Time.Format(time.RFC3339Nano)`.
They are parameters of the embedding. -/
structure Env where
  DecodeJSON : String → Option sshCertificate
  EncodeJSON : sshCertificate → Except Error String
  FormatRFC3339Nano : Time → String

/-! ## Storage -/

/-- First value bound to `k` in an association list. -/
def kvGet : List (String × String) → String → Option String
  | [], _ => none
  | (k1, v) :: rest, k => if k1 = k then some v else kvGet rest k

/-- Bind `k` to `v`, dropping any earlier binding of `k`. -/
def kvPut (d : List (String × String)) (k v : String) : List (String × String) :=
  (k, v) :: d.filter (fun p => !decide (p.1 = k))

/-- The remainder of `l` after the leading `p`, when `l` starts with `p`. -/
def dropLeading : List Char → List Char → Option (List Char)
  | [], l => some l
  | _ :: _, [] => none
  | a :: p, b :: l => if a = b then dropLeading p l else none

/-- Modelled from the spec: the key-value storage collaborator behind
`req.Storage` (`logical.Storage`, outside the repository), which provides
get / put / list by key prefix with read-your-writes consistency and no
transactions. `data` is the key-value map (first binding of a key wins);
`faults` schedules the outcome of the coming storage calls, one item per call:
`some msg` makes the call return the error `msg` and change nothing, `none`
(or an exhausted schedule) lets it go through. -/
structure Storage where
  data : List (String × String)
  faults : List (Option String)
deriving DecidableEq, Repr

namespace Storage

/-- The value stored under `key`, if any. -/
def read (st : Storage) (key : String) : Option String :=
  kvGet st.data key

/-- The keys of the store, each once. -/
def keys (st : Storage) : List String :=
  (st.data.map Prod.fst).dedup

/-- The keys under `pfx`, with `pfx` removed. -/
def under (st : Storage) (pfx : String) : List String :=
  st.keys.filterMap (fun k => (dropLeading pfx.data k.data).map String.mk)

/-- The outcome scheduled for the next storage call. -/
def nextFault (st : Storage) : Option String :=
  match st.faults with
  | [] => none
  | f :: _ => f

/-- The storage after one call has consumed its scheduled outcome. -/
def advance (st : Storage) : Storage :=
  { st with faults := st.faults.tail }

/-- `Storage.Get`. -/
def Get (st : Storage) (key : String) : Except Error (Option StorageEntry) × Storage :=
  match st.nextFault with
  | some msg => (.error (.plain msg), st.advance)
  | none => (.ok ((st.read key).map (StorageEntry.mk key)), st.advance)

/-- `Storage.Put`. -/
def Put (st : Storage) (entry : StorageEntry) : Except Error Unit × Storage :=
  match st.nextFault with
  | some msg => (.error (.plain msg), st.advance)
  | none => (.ok (), { data := kvPut st.data entry.Key entry.Value, faults := st.faults.tail })

/-- `Storage.List`. -/
def List (st : Storage) (pfx : String) : Except Error (List String) × Storage :=
  match st.nextFault with
  | some msg => (.error (.plain msg), st.advance)
  | none => (.ok (st.under pfx), st.advance)

end Storage

/-- `logical.StorageEntryJSON`: the entry for `key` holding the JSON encoding of `c`. -/
def StorageEntryJSON (env : Env) (key : String) (c : sshCertificate) : Except Error StorageEntry :=
  match env.EncodeJSON c with
  | .error e => .error e
  | .ok bytes => .ok { Key := key, Value := bytes }

/-! ## crl.go -/

/-- The method `sshCertificate.toRevokedResponse` (crl.go, lines 101-108). -/
def sshCertificate.toRevokedResponse (env : Env) (c : sshCertificate) : Response :=
  { Data := [("revocation_time", .int c.Revocation.Unix),
             ("revocation_time_rfc3339", .str (env.FormatRFC3339Nano c.Revocation))] }

/-- The loop of `buildCrl` (crl.go, lines 71-88): load and decode every listed
serial, appending its certificate to `acc`. -/
def buildCrlLoop (env : Env) : List String → List String → Storage →
    Except Error (List String) × Storage
  | [], acc, st => (.ok acc, st)
  | serial :: rest, acc, st =>
    match st.Get ("revoked/" ++ serial) with
    | (.error err, st1) =>
      (.error (.internal ("Unable to fetch revoked SSH cert with serial " ++ serial ++ ": "
        ++ err.text)), st1)
    | (.ok none, st1) =>
      (.error (.internal ("Revoked SSH certificate entry for serial " ++ serial ++ " is nil")),
        st1)
    | (.ok (some revokedEntry), st1) =>
      match env.DecodeJSON revokedEntry.Value with
      | none =>
        (.error (.internal ("Unable to decode entry for SSH certificate serial " ++ serial)),
          st1)
      | some revokedCertificate =>
        buildCrlLoop env rest (acc ++ [revokedCertificate.Certificate]) st1

/-- The function `buildCrl` (crl.go, lines 65-99); `.ok ()` is the Go `nil` error. -/
def buildCrl (env : Env) (st : Storage) : Except Error Unit × Storage :=
  match st.List "revoked/" with
  | (.error err, st1) =>
    (.error (.internal ("Error fetching list of revoked SSH certs: " ++ err.text)), st1)
  | (.ok revokedSerials, st1) =>
    match buildCrlLoop env revokedSerials [] st1 with
    | (.error err, st2) => (.error err, st2)
    | (.ok revokedCertificates, st2) =>
      match st2.Put { Key := "crl", Value := String.intercalate "\n" revokedCertificates } with
      | (.error err, st3) => (.error (.internal ("Error storing CRL: " ++ err.text)), st3)
      | (.ok (), st3) => (.ok (), st3)

/-- The function `revokeSSHCertificate` (crl.go, lines 18-63); `now` is the
reading of `time.Now()`. -/
def revokeSSHCertificate (env : Env) (now : Time) (st : Storage) (serialNumber : String) :
    Except Error Response × Storage :=
  match st.Get ("revoked/" ++ serialNumber) with
  | (.error err, st1) => (.error err, st1)
  | (.ok (some existing), st1) =>
    match env.DecodeJSON existing.Value with
    | none =>
      (.error (.internal ("Unable to decode existing entry for SSH certificate serial "
        ++ serialNumber)), st1)
    | some revokedCertificate => (.ok (revokedCertificate.toRevokedResponse env), st1)
  | (.ok none, st1) =>
    match st1.Get ("certs/" ++ serialNumber) with
    | (.error err, st2) => (.error err, st2)
    | (.ok none, st2) =>
      (.error (.plain ("Unnknown certificate serial number '" ++ serialNumber ++ "'")), st2)
    | (.ok (some entry), st2) =>
      match env.DecodeJSON entry.Value with
      | none =>
        (.error (.internal ("Unable to decode entry for SSH certificate serial "
          ++ serialNumber)), st2)
      | some issued =>
        let revokedCertificate : sshCertificate := { issued with Revocation := now.UTC }
        match StorageEntryJSON env ("revoked/" ++ serialNumber) revokedCertificate with
        | .error err => (.error err, st2)
        | .ok revokedEntry =>
          match st2.Put revokedEntry with
          | (.error _, st3) =>
            (.error (.plain "Error saving revoked certificate to new location"), st3)
          | (.ok (), st3) =>
            match buildCrl env st3 with
            | (.error err, st4) => (.error err, st4)
            | (.ok (), st4) => (.ok (revokedCertificate.toRevokedResponse env), st4)

/-- The lines of a CRL body: `strings.Split(body, "\n")`. -/
def crlLines (body : String) : List String :=
  (body.data.splitOn (Char.ofNat 10)).map String.mk

/-! ## Auxiliary notions used by the statements -/

/-- The certificate blob of the record stored under `revoked/<serial>`, when the
record is there and decodes. -/
def revokedBlob (env : Env) (st : Storage) (serial : String) : Option String :=
  match st.read ("revoked/" ++ serial) with
  | none => none
  | some v => (env.DecodeJSON v).map (fun c => c.Certificate)

/-- No storage call to come is scheduled to fail. -/
def Storage.quiet (st : Storage) : Prop :=
  ∀ f ∈ st.faults, f = none

/-- None of the next `n` storage calls is scheduled to fail. -/
def Storage.quietFor (n : Nat) (st : Storage) : Prop :=
  ∀ f ∈ st.faults.take n, f = none

instance (st : Storage) : Decidable st.quiet :=
  inferInstanceAs (Decidable (∀ f ∈ st.faults, f = none))

instance (n : Nat) (st : Storage) : Decidable (st.quietFor n) :=
  inferInstanceAs (Decidable (∀ f ∈ st.faults.take n, f = none))

/-- The storage after the revoked record `bytes` of `serial` has been written by a
revocation that made three storage calls (two reads and the write). -/
def afterRevokedPut (st : Storage) (serial bytes : String) : Storage :=
  { data := kvPut st.data ("revoked/" ++ serial) bytes, faults := st.faults.tail.tail.tail }

/-! ## Sample data for the worked instances -/

/-- The zero `time.Time` (January 1, year 1, 00:00:00 UTC). -/
def zeroTime : Time :=
  { sec := -62135596800, nsec := 0, offset := 0 }

/-- An expiry instant used by the sample records. -/
def sampleExpiry : Time :=
  { sec := 2000000000, nsec := 0, offset := 0 }

/-- A clock reading used by the sample runs (local zone one hour east of UTC). -/
def sampleNow : Time :=
  { sec := 1500000000, nsec := 250, offset := 3600 }

/-- A later clock reading. -/
def sampleLater : Time :=
  { sec := 1500000999, nsec := 0, offset := 3600 }

/-- An issued record carrying the certificate `blob`. -/
def sampleIssued (blob : String) : sshCertificate :=
  { ValidBefore := sampleExpiry, Certificate := blob, Revocation := zeroTime }

/-- A small codec standing in for the JSON library in the sample runs: an issued
sample record is written as `I:` followed by its certificate, a sample record
revoked at `sampleNow` as `R:` followed by its certificate; nothing else encodes
or decodes. -/
def sampleEnv : Env where
  DecodeJSON := fun s =>
    match s.data with
    | 'I' :: ':' :: rest => some (sampleIssued (String.mk rest))
    | 'R' :: ':' :: rest => some { sampleIssued (String.mk rest) with Revocation := sampleNow.UTC }
    | _ => none
  EncodeJSON := fun c =>
    if c = sampleIssued c.Certificate then .ok ("I:" ++ c.Certificate)
    else if c = { sampleIssued c.Certificate with Revocation := sampleNow.UTC } then
      .ok ("R:" ++ c.Certificate)
    else .error (.plain "json: unsupported value")
  FormatRFC3339Nano := fun t => toString t.sec ++ "." ++ toString t.nsec

/-- A store holding one issued certificate, serial `a`. -/
def sampleStore : Storage :=
  { data := [("certs/a", "I:cert-a")], faults := [] }

/-- The response of the sample revocation of serial `a` at `sampleNow`. -/
def sampleResponse : Response :=
  { Data := [("revocation_time", .int 1500000000),
      ("revocation_time_rfc3339", .str "1500000000.250")] }

/-- A store with two revoked records and a stale `crl`. -/
def sampleRevokedStore : Storage :=
  { data := [("revoked/a", "R:cert-a"), ("crl", "stale"), ("revoked/b", "R:cert-b"),
      ("certs/a", "I:cert-a")],
    faults := [] }

/-- A store whose revoked record `b` is corrupt. -/
def sampleCorruptStore : Storage :=
  { data := [("revoked/a", "R:cert-a"), ("crl", "cert-a"), ("revoked/b", "garbage"),
      ("certs/c", "I:cert-c")],
    faults := [] }

/-- The sample store with a storage that refuses its sixth call, the write of `crl`. -/
def sampleFailingStore : Storage :=
  { data := [("certs/a", "I:cert-a")],
    faults := [none, none, none, none, none, some "disk full"] }

/-- The CRL is complete: the certificate blob of every decodable record under
`revoked/` that contains no newline is one of the lines of the `crl` body. -/
def CrlComplete (env : Env) (st : Storage) : Prop :=
  ∀ k blob, revokedBlob env st k = some blob → Char.ofNat 10 ∉ blob.data →
    ∃ body, st.read "crl" = some body ∧ blob ∈ crlLines body

/-- The storage left by the sample revocation whose `crl` write failed: serial `a`
is revoked, no `crl` record exists. -/
def sampleLaggingStore : Storage :=
  (revokeSSHCertificate sampleEnv sampleNow sampleFailingStore "a").2

/-- A store holding two issued certificates, serials `a` and `b`, whose storage
refuses its sixth call. -/
def sampleTwoStore : Storage :=
  { data := [("certs/a", "I:cert-a"), ("certs/b", "I:cert-b")],
    faults := [none, none, none, none, none, some "disk full"] }

/-- A sequence of calls of `revokeSSHCertificate`, each with its clock reading, its
serial and the behaviour of the storage during the call; the storage it leads to. -/
def revokeAll (env : Env) : Storage → List (Time × String × List (Option String)) → Storage
  | st, [] => st
  | st, (now, serial, fs) :: rest =>
    revokeAll env (revokeSSHCertificate env now { data := st.data, faults := fs } serial).2 rest

/-- The CRL is sound: a `crl` body, when there is one, is the newline-join of a
non-empty list of certificate blobs, each the blob of a record under `revoked/`. -/
def CrlSound (env : Env) (st : Storage) : Prop :=
  ∀ body, st.read "crl" = some body →
    ∃ certs, certs ≠ [] ∧ body = String.intercalate "\n" certs ∧
      ∀ b ∈ certs, ∃ k, revokedBlob env st k = some b

/-- Two issued certificates, serials `a` and `b`, that carry the same blob. -/
def sampleTwinStore : Storage :=
  { data := [("certs/a", "I:cert-x"), ("certs/b", "I:cert-x")], faults := [] }

/-- A store in which nothing is revoked but a `crl` record names the blob of `a`. -/
def sampleStaleStore : Storage :=
  { data := [("certs/a", "I:cert-a"), ("crl", "cert-a")], faults := [] }

/-! ## The request layer -/

/-- Modelled from the spec: `logical.ErrorResponse` of the hosting runtime, the
response that carries a validation error to the caller (its `Data` holds the
single key `error`). -/
def ErrorResponse (text : String) : Response :=
  { Data := [("error", .str text)] }

/-- How a Go call ends: it returns its results, or the goroutine crashes with a
run-time error (nil dereference, failed type assertion) and returns nothing. -/
inductive Outcome (α : Type) where
  | returned (value : α)
  | crashed (cause : String)
deriving DecidableEq, Repr

/-! ## path_fetch.go -/

/-- The method `backend.pathFetchCrl` (path_fetch.go, lines 34-50). The entry that
`Storage.Get` returns is used without a nil check: `entry.Value` on a missing
record is a nil pointer dereference. -/
def pathFetchCrl (st : Storage) : Outcome (Except Error Response) × Storage :=
  match st.Get "crl" with
  | (.error err, st1) => (.returned (.error err), st1)
  | (.ok none, st1) =>
    (.crashed "invalid memory address or nil pointer dereference", st1)
  | (.ok (some entry), st1) =>
    (.returned (.ok { Data := [("http_content_type", .str "text/plain"),
                               ("http_raw_body", .bytes entry.Value),
                               ("http_status_code", .int 200)] }), st1)

/-! ## path_revoke.go and secret_ssh_cert.go -/

/-- The method `backend.pathRevokeWrite` (path_revoke.go, lines 27-38); `serial` is
`data.Get("serial_number")`. Taking and releasing `revokeStorageLock` has no
effect on a single call. -/
def pathRevokeWrite (env : Env) (now : Time) (st : Storage) (serial : String) :
    Except Error Response × Storage :=
  if serial.length = 0 then
    (.ok (ErrorResponse "The serial number must be provided"), st)
  else
    revokeSSHCertificate env now st serial

/-- A `logical.Secret`, of which the code reads the `InternalData` map. -/
structure Secret where
  InternalData : List (String × Value)
deriving DecidableEq, Repr

/-- The method `backend.secretCredsRevoke` (secret_ssh_cert.go, lines 31-45);
`secret` is `req.Secret`. The type assertion `serialNumber.(string)` crashes on a
value that is not a string. -/
def secretCredsRevoke (env : Env) (now : Time) (st : Storage) (secret : Option Secret) :
    Outcome (Except Error Response) × Storage :=
  match secret with
  | none => (.returned (.error (.plain "secret is nil in request")), st)
  | some sec =>
    match sec.InternalData.lookup "serial_number" with
    | none =>
      (.returned (.error (.plain "could not find signed key in internal secret data")), st)
    | some (.str serialNumber) =>
      (.returned (revokeSSHCertificate env now st serialNumber).1,
        (revokeSSHCertificate env now st serialNumber).2)
    | some _ =>
      (.crashed "interface conversion: interface is not string", st)

/-! ## utils.go and path_role.go -/

/-- The role record stored under `role/<name>` (path_role.go, lines 257-269). -/
structure roleEntry where
  MaxTTL : String
  TTL : String
  DefaultCriticalOptions : List (String × String)
  DefaultExtensions : List (String × String)
  AllowedCriticalOptions : String
  AllowedExtensions : String
  AllowUserCertificates : Bool
  AllowHostCertificates : Bool
  AllowedValidPrincipals : String
  AllowBareDomains : Bool
  AllowSubdomains : Bool
deriving DecidableEq, Repr

/-- The fields of a role request as `framework.FieldData.Get` hands them to the
code, schema defaults applied: a string field that the caller omitted is `""`. -/
structure RoleFields where
  name : String
  ttl : String
  max_ttl : String
  allowed_critical_options : String
  allowed_extensions : String
  default_critical_options : List (String × Value)
  default_extensions : List (String × Value)
  allow_user_certificates : Bool
  allow_host_certificates : Bool
  allowed_valid_principals : String
  allow_bare_domains : Bool
  allow_subdomains : Bool
deriving DecidableEq, Repr

/-- The lease limits of the mount, `b.System()`: durations in nanoseconds. -/
structure SystemView where
  DefaultLeaseTTL : Int
  MaxLeaseTTL : Int
deriving DecidableEq, Repr

/-- Library functions the role code calls and that are not part of the repository:
`time.ParseDuration` (its error as text), `Duration.String`, `fmt.Sprintf("%v", _)`
and the JSON codec of `roleEntry` records. They are parameters of the embedding;
a `time.Duration` is its number of nanoseconds. -/
structure RoleEnv where
  ParseDuration : String → Except String Int
  DurationString : Int → String
  Sprintv : Value → String
  EncodeRole : roleEntry → Except Error String
  DecodeRole : String → Except Error roleEntry

/-- The function `convertMapToStringValue` (utils.go, lines 5-11). -/
def convertMapToStringValue (renv : RoleEnv) (initial : List (String × Value)) :
    List (String × String) :=
  initial.map (fun kv => (kv.1, renv.Sprintv kv.2))

/-- The method `backend.getRole` (path_role.go, lines 115-130). -/
def getRole (renv : RoleEnv) (st : Storage) (n : String) :
    Except Error (Option roleEntry) × Storage :=
  match st.Get ("role/" ++ n) with
  | (.error err, st1) => (.error err, st1)
  | (.ok none, st1) => (.ok none, st1)
  | (.ok (some entry), st1) =>
    match renv.DecodeRole entry.Value with
    | .error err => (.error err, st1)
    | .ok result => (.ok (some result), st1)

/-- Modelled from the spec: `structs.New(role).Map()` of the `structs` library,
the role as a map keyed by the `structs` tags of `roleEntry`; the library always
returns a map (`some`), never nil. -/
def structsMap (role : roleEntry) : Option (List (String × Value)) :=
  some [("max_ttl", .str role.MaxTTL),
    ("ttl", .str role.TTL),
    ("default_critical_options", .strMap role.DefaultCriticalOptions),
    ("default_extensions", .strMap role.DefaultExtensions),
    ("allowed_critical_options", .str role.AllowedCriticalOptions),
    ("allowed_extensions", .str role.AllowedExtensions),
    ("allow_user_certificates", .bool role.AllowUserCertificates),
    ("allow_host_certificates", .bool role.AllowHostCertificates),
    ("allowed_valid_principals", .str role.AllowedValidPrincipals),
    ("allow_bare_domains", .bool role.AllowBareDomains),
    ("allow_subdomains", .bool role.AllowSubdomains)]

/-- The method `backend.pathRoleRead` (path_role.go, lines 141-172); `name` is
`data.Get("name")`, and `.ok none` is the Go result `nil, nil`. -/
def pathRoleRead (renv : RoleEnv) (st : Storage) (name : String) :
    Except Error (Option Response) × Storage :=
  match getRole renv st name with
  | (.error err, st1) => (.error err, st1)
  | (.ok none, st1) => (.ok none, st1)
  | (.ok (some role), st1) =>
    let hasMax : Bool := !(role.MaxTTL.length = 0)
    let role1 : roleEntry :=
      if role.MaxTTL.length = 0 then { role with MaxTTL := "(system default)" } else role
    let role2 : roleEntry :=
      if role1.TTL.length = 0 then
        if hasMax then { role1 with TTL := "(system default, capped to role max)" }
        else { role1 with TTL := "(system default)" }
      else role1
    match structsMap role2 with
    | none => (.error (.plain "error converting role data to response"), st1)
    | some m => (.ok (some { Data := m }), st1)

/-- The end of `pathRoleCreate` (path_role.go, lines 239-254): write the resolved
durations into the entry as canonical strings, set the converted maps and store
the entry under `role/<name>`. -/
def persistRole (renv : RoleEnv) (st : Storage) (name : String) (entry : roleEntry)
    (defaultCriticalOptions defaultExtensions : List (String × String)) (ttl maxTTL : Int) :
    Except Error (Option Response) × Storage :=
  let entry1 : roleEntry :=
    { entry with TTL := renv.DurationString ttl, MaxTTL := renv.DurationString maxTTL,
                 DefaultCriticalOptions := defaultCriticalOptions,
                 DefaultExtensions := defaultExtensions }
  match renv.EncodeRole entry1 with
  | .error err => (.error err, st)
  | .ok bytes =>
    match st.Put { Key := "role/" ++ name, Value := bytes } with
    | (.error err, st1) => (.error err, st1)
    | (.ok (), st1) => (.ok none, st1)

/-- The method `backend.pathRoleCreate` (path_role.go, lines 184-255); `.ok none`
is the Go result `nil, nil` of a role that was stored, `.ok (some _)` a validation
error handed to the caller as a response. -/
def pathRoleCreate (renv : RoleEnv) (sys : SystemView) (st : Storage) (data : RoleFields) :
    Except Error (Option Response) × Storage :=
  let name := data.name
  let entry : roleEntry :=
    { MaxTTL := data.max_ttl,
      TTL := data.ttl,
      DefaultCriticalOptions := [],
      DefaultExtensions := [],
      AllowedCriticalOptions := data.allowed_critical_options,
      AllowedExtensions := data.allowed_extensions,
      AllowUserCertificates := data.allow_user_certificates,
      AllowHostCertificates := data.allow_host_certificates,
      AllowedValidPrincipals := data.allowed_valid_principals,
      AllowBareDomains := data.allow_bare_domains,
      AllowSubdomains := data.allow_subdomains }
  let defaultCriticalOptions := convertMapToStringValue renv data.default_critical_options
  let defaultExtensions := convertMapToStringValue renv data.default_extensions
  let maxSystemTTL := sys.MaxLeaseTTL
  match (if entry.MaxTTL.length = 0 then .ok maxSystemTTL
         else renv.ParseDuration entry.MaxTTL) with
  | .error err => (.ok (some (ErrorResponse ("Invalid ttl: " ++ err))), st)
  | .ok maxTTL =>
    if maxTTL > maxSystemTTL then
      (.ok (some (ErrorResponse "Requested max TTL is higher than backend maximum")), st)
    else
      match (if entry.TTL.length ≠ 0 then renv.ParseDuration entry.TTL
             else .ok sys.DefaultLeaseTTL) with
      | .error err => (.ok (some (ErrorResponse ("Invalid ttl: " ++ err))), st)
      | .ok ttl =>
        if ttl > maxTTL then
          if entry.TTL.length = 0 then
            persistRole renv st name entry defaultCriticalOptions defaultExtensions maxTTL maxTTL
          else
            (.ok (some (ErrorResponse
              "\"ttl\" value must be less than \"max_ttl\" and/or backend default max lease TTL value")),
              st)
        else
          persistRole renv st name entry defaultCriticalOptions defaultExtensions ttl maxTTL

/-- The entry `pathRoleCreate` stores for the request `data` once it has resolved
the durations `ttl` and `maxTTL` (path_role.go, lines 189-199 and 240-243). -/
def storedRole (renv : RoleEnv) (data : RoleFields) (ttl maxTTL : Int) : roleEntry :=
  { MaxTTL := renv.DurationString maxTTL,
    TTL := renv.DurationString ttl,
    DefaultCriticalOptions := convertMapToStringValue renv data.default_critical_options,
    DefaultExtensions := convertMapToStringValue renv data.default_extensions,
    AllowedCriticalOptions := data.allowed_critical_options,
    AllowedExtensions := data.allowed_extensions,
    AllowUserCertificates := data.allow_user_certificates,
    AllowHostCertificates := data.allow_host_certificates,
    AllowedValidPrincipals := data.allowed_valid_principals,
    AllowBareDomains := data.allow_bare_domains,
    AllowSubdomains := data.allow_subdomains }

/-- The duration `maxTTL` is what `pathRoleCreate` resolves `max_ttl` to: the system
maximum when the field is empty, the parsed field otherwise. -/
def ResolvesMaxTTL (renv : RoleEnv) (sys : SystemView) (data : RoleFields) (maxTTL : Int) : Prop :=
  (data.max_ttl = "" ∧ maxTTL = sys.MaxLeaseTTL) ∨
    (data.max_ttl ≠ "" ∧ renv.ParseDuration data.max_ttl = .ok maxTTL)

instance (renv : RoleEnv) (sys : SystemView) (data : RoleFields) (maxTTL : Int) :
    Decidable (ResolvesMaxTTL renv sys data maxTTL) :=
  inferInstanceAs (Decidable (_ ∨ _))

/-! ## Sample data for roles -/

/-- The decimal digit `k` as a character. -/
def digitChar (k : Nat) : Char :=
  Char.ofNat (48 + k)

/-- The decimal digits of `n`, least significant first (`fuel` bounds their number). -/
def digitsLE : Nat → Nat → List Char
  | 0, _ => []
  | fuel + 1, n => if n < 10 then [digitChar n] else digitChar (n % 10) :: digitsLE fuel (n / 10)

/-- The number written by decimal digits, least significant first, and whether a
minus sign closes them. -/
def evalLE : List Char → Option (Nat × Bool)
  | [] => some (0, false)
  | c :: cs =>
    if c = '-' ∧ cs = [] then some (0, true)
    else if c.isDigit then (evalLE cs).map (fun p => (p.1 * 10 + (c.toNat - 48), p.2))
    else none

/-- A duration written as its number of nanoseconds with the unit `ns`. -/
def nanosString (d : Int) : String :=
  String.mk ((digitsLE (d.natAbs + 1) d.natAbs ++ (if d < 0 then ['-'] else [])).reverse
    ++ ['n', 's'])

/-- The duration written as a number of nanoseconds with the unit `ns`. -/
def parseNanos (s : String) : Option Int :=
  match s.data.reverse with
  | 's' :: 'n' :: ds => (evalLE ds).map (fun p => if p.2 then -(p.1 : Int) else (p.1 : Int))
  | _ => none

/-- Two hours in nanoseconds. -/
def hours2 : Int := 7200000000000

/-- A day in nanoseconds. -/
def hours24 : Int := 86400000000000

/-- Two days in nanoseconds. -/
def hours48 : Int := 172800000000000

/-- A duration printer for the sample runs: the three sample durations as Go prints
them, any other as nanoseconds. -/
def sampleDurationString (d : Int) : String :=
  if d = hours2 then "2h0m0s"
  else if d = hours24 then "24h0m0s"
  else if d = hours48 then "48h0m0s"
  else nanosString d

/-- A duration parser for the sample runs: nanoseconds with the unit `ns`, and the
three sample durations as Go prints them. -/
def sampleParseDuration (s : String) : Except String Int :=
  match parseNanos s with
  | some d => .ok d
  | none =>
    if s = "2h0m0s" then .ok hours2
    else if s = "24h0m0s" then .ok hours24
    else if s = "48h0m0s" then .ok hours48
    else .error ("time: invalid duration " ++ s)

/-- The lease limits of the test mount: a day by default, two days at most. -/
def sampleSys : SystemView :=
  { DefaultLeaseTTL := hours24, MaxLeaseTTL := hours48 }

/-- The request that creates the role `testing` with the given `ttl` and `max_ttl`. -/
def sampleFields (ttl maxTtl : String) : RoleFields :=
  { name := "testing",
    ttl := ttl,
    max_ttl := maxTtl,
    allowed_critical_options := "",
    allowed_extensions := "",
    default_critical_options := [("force-command", .str "/bin/true")],
    default_extensions := [("permit-pty", .bool true)],
    allow_user_certificates := true,
    allow_host_certificates := true,
    allowed_valid_principals := "dummy",
    allow_bare_domains := false,
    allow_subdomains := false }

/-- The role `testing` as stored with the canonical strings `ttl` and `maxTtl`. -/
def sampleRole (ttl maxTtl : String) : roleEntry :=
  { MaxTTL := maxTtl,
    TTL := ttl,
    DefaultCriticalOptions := [("force-command", "/bin/true")],
    DefaultExtensions := [("permit-pty", "true")],
    AllowedCriticalOptions := "",
    AllowedExtensions := "",
    AllowUserCertificates := true,
    AllowHostCertificates := true,
    AllowedValidPrincipals := "dummy",
    AllowBareDomains := false,
    AllowSubdomains := false }

/-- The library functions of the sample runs. The role codec knows three records:
the role `testing` with (`ttl`, `max_ttl`) of (2h, 48h), (24h, 48h) and (2h, 2h). -/
def sampleRoleEnv : RoleEnv where
  ParseDuration := sampleParseDuration
  DurationString := sampleDurationString
  Sprintv := fun v =>
    match v with
    | .str s => s
    | .bool b => if b then "true" else "false"
    | .int i => toString i
    | .bytes b => b
    | .strMap _ => "map[]"
  EncodeRole := fun r =>
    if r = sampleRole "2h0m0s" "48h0m0s" then .ok "testing ttl=2h0m0s max_ttl=48h0m0s"
    else if r = sampleRole "24h0m0s" "48h0m0s" then .ok "testing ttl=24h0m0s max_ttl=48h0m0s"
    else if r = sampleRole "2h0m0s" "2h0m0s" then .ok "testing ttl=2h0m0s max_ttl=2h0m0s"
    else .error (.plain "json: unsupported value")
  DecodeRole := fun b =>
    if b = "testing ttl=2h0m0s max_ttl=48h0m0s" then .ok (sampleRole "2h0m0s" "48h0m0s")
    else if b = "testing ttl=24h0m0s max_ttl=48h0m0s" then .ok (sampleRole "24h0m0s" "48h0m0s")
    else if b = "testing ttl=2h0m0s max_ttl=2h0m0s" then .ok (sampleRole "2h0m0s" "2h0m0s")
    else .error (.plain "invalid character")

/-- An empty store. -/
def emptyStore : Storage :=
  { data := [], faults := [] }

/-- The secret that the signing of serial `a` registers. -/
def sampleSecret : Secret :=
  { InternalData := [("serial_number", .str "a")] }

/-! # Lemmas -/

/-! ## The key-value map -/

theorem kvGet_kvPut_same (d : List (String × String)) (k v : String) :
    kvGet (kvPut d k v) k = some v := by
  simp [kvPut, kvGet]

theorem kvGet_filter_ne (d : List (String × String)) (k k1 : String) (h : k1 ≠ k) :
    kvGet (d.filter (fun p => !decide (p.1 = k))) k1 = kvGet d k1 := by
  induction d with
  | nil => rfl
  | cons p rest ih =>
    obtain ⟨a, b⟩ := p
    by_cases hak : a = k
    · subst hak
      have : ¬ a = k1 := fun e => h e.symm
      simp [List.filter, kvGet, this, ih]
    · simp [List.filter, kvGet, hak, ih]

theorem kvGet_kvPut_ne (d : List (String × String)) (k v k1 : String) (h : k1 ≠ k) :
    kvGet (kvPut d k v) k1 = kvGet d k1 := by
  have hk : ¬ k = k1 := fun e => h e.symm
  simp [kvPut, kvGet, hk, kvGet_filter_ne d k k1 h]

theorem kvGet_isSome_iff (d : List (String × String)) (k : String) :
    (kvGet d k).isSome ↔ k ∈ d.map Prod.fst := by
  induction d with
  | nil => simp [kvGet]
  | cons p rest ih =>
    obtain ⟨a, b⟩ := p
    by_cases hak : a = k
    · simp [kvGet, hak]
    · have : ¬ k = a := fun e => hak e.symm
      simp [kvGet, hak, this, ih]

theorem dropLeading_eq_some (p l t : List Char) : dropLeading p l = some t ↔ l = p ++ t := by
  induction p generalizing l with
  | nil => simp [dropLeading, eq_comm]
  | cons a p ih =>
    cases l with
    | nil => simp [dropLeading]
    | cons b l =>
      by_cases hab : a = b
      · subst hab
        simp [dropLeading, ih]
      · have : ¬ b = a := fun e => hab e.symm
        simp [dropLeading, hab, this]

namespace Storage

theorem mem_keys (st : Storage) (k : String) : k ∈ st.keys ↔ (st.read k).isSome := by
  simp only [keys, read, List.mem_dedup, kvGet_isSome_iff]

theorem mem_under (st : Storage) (pfx k : String) :
    k ∈ st.under pfx ↔ (st.read (pfx ++ k)).isSome := by
  simp only [under, List.mem_filterMap, Option.map_eq_some', dropLeading_eq_some]
  constructor
  · rintro ⟨key, hkey, t, ht, rfl⟩
    have : key = pfx ++ String.mk t := by
      apply String.ext
      simp [ht]
    rw [← this]
    exact (mem_keys st key).1 hkey
  · intro h
    exact ⟨pfx ++ k, (mem_keys st _).2 h, k.data, by simp, rfl⟩

theorem nodup_under (st : Storage) (pfx : String) : (st.under pfx).Nodup := by
  unfold under
  apply List.Nodup.filterMap
  · intro a a1 b hb hb1
    simp only [Option.mem_def, Option.map_eq_some', dropLeading_eq_some] at hb hb1
    obtain ⟨t, ht, rfl⟩ := hb
    obtain ⟨t1, ht1, h1⟩ := hb1
    have : t1 = t := by simpa using congrArg String.data h1
    subst this
    exact String.ext (ht.trans ht1.symm)
  · exact List.nodup_dedup _

@[simp] theorem advance_data (st : Storage) : st.advance.data = st.data := rfl

@[simp] theorem advance_faults (st : Storage) : st.advance.faults = st.faults.tail := rfl

@[simp] theorem advance_read (st : Storage) (k : String) : st.advance.read k = st.read k := rfl

@[simp] theorem advance_under (st : Storage) (pfx : String) :
    st.advance.under pfx = st.under pfx := rfl

theorem quiet_nextFault {st : Storage} (h : st.quiet) : st.nextFault = none := by
  unfold nextFault
  cases hf : st.faults with
  | nil => rfl
  | cons f fs => exact h f (by simp [hf])

theorem quiet_advance {st : Storage} (h : st.quiet) : st.advance.quiet := by
  intro f hf
  exact h f (List.mem_of_mem_tail hf)

theorem Get_quiet {st : Storage} (h : st.nextFault = none) (k : String) :
    st.Get k = (.ok ((st.read k).map (StorageEntry.mk k)), st.advance) := by
  simp [Get, h]

theorem Get_fault {st : Storage} {msg : String} (h : st.nextFault = some msg) (k : String) :
    st.Get k = (.error (.plain msg), st.advance) := by
  simp [Get, h]

theorem List_quiet {st : Storage} (h : st.nextFault = none) (pfx : String) :
    st.List pfx = (.ok (st.under pfx), st.advance) := by
  simp [List, h]

theorem List_fault {st : Storage} {msg : String} (h : st.nextFault = some msg) (pfx : String) :
    st.List pfx = (.error (.plain msg), st.advance) := by
  simp [List, h]

theorem Put_quiet {st : Storage} (h : st.nextFault = none) (e : StorageEntry) :
    st.Put e = (.ok (), { data := kvPut st.data e.Key e.Value, faults := st.faults.tail }) := by
  simp [Put, h]

theorem Put_fault {st : Storage} {msg : String} (h : st.nextFault = some msg) (e : StorageEntry) :
    st.Put e = (.error (.plain msg), st.advance) := by
  simp [Put, h]

end Storage

theorem revokedBlob_congr (env : Env) {st st1 : Storage} (h : st1.data = st.data) (k : String) :
    revokedBlob env st1 k = revokedBlob env st k := by
  simp [revokedBlob, Storage.read, h]

/-! ## Keys of the three namespaces never collide -/

theorem revoked_ne_crl (s : String) : "revoked/" ++ s ≠ "crl" := by
  intro h
  have := congrArg String.data h
  simp at this

theorem certs_ne_crl (s : String) : "certs/" ++ s ≠ "crl" := by
  intro h
  have := congrArg String.data h
  simp at this

theorem certs_ne_revoked (s t : String) : "certs/" ++ s ≠ "revoked/" ++ t := by
  intro h
  have := congrArg String.data h
  simp at this

/-! ## The loop of `buildCrl` -/

theorem buildCrlLoop_data (env : Env) (l : List String) (acc : List String) (st : Storage) :
    (buildCrlLoop env l acc st).2.data = st.data := by
  induction l generalizing acc st with
  | nil => rfl
  | cons k rest ih =>
    cases hf : st.nextFault with
    | some msg => simp [buildCrlLoop, Storage.Get_fault hf]
    | none =>
      cases hr : st.read ("revoked/" ++ k) with
      | none => simp [buildCrlLoop, Storage.Get_quiet hf, hr]
      | some v =>
        cases hd : env.DecodeJSON v with
        | none => simp [buildCrlLoop, Storage.Get_quiet hf, hr, hd]
        | some c =>
          simp only [buildCrlLoop, Storage.Get_quiet hf, hr, hd, Option.map_some']
          rw [ih]
          rfl

theorem buildCrlLoop_ok (env : Env) (l : List String) (acc certs : List String)
    (st st2 : Storage) (h : buildCrlLoop env l acc st = (.ok certs, st2)) :
    ∃ bs, certs = acc ++ bs ∧ l.map (revokedBlob env st) = bs.map some := by
  induction l generalizing acc st with
  | nil =>
    simp only [buildCrlLoop, Prod.mk.injEq, Except.ok.injEq] at h
    exact ⟨[], by simp [h.1], rfl⟩
  | cons k rest ih =>
    cases hf : st.nextFault with
    | some msg => simp [buildCrlLoop, Storage.Get_fault hf] at h
    | none =>
      cases hr : st.read ("revoked/" ++ k) with
      | none => simp [buildCrlLoop, Storage.Get_quiet hf, hr] at h
      | some v =>
        cases hd : env.DecodeJSON v with
        | none => simp [buildCrlLoop, Storage.Get_quiet hf, hr, hd] at h
        | some c =>
          simp only [buildCrlLoop, Storage.Get_quiet hf, hr, hd, Option.map_some'] at h
          obtain ⟨bs, hbs, hmap⟩ := ih _ _ h
          refine ⟨c.Certificate :: bs, by simp [hbs], ?_⟩
          have hk : revokedBlob env st k = some c.Certificate := by
            simp [revokedBlob, hr, hd]
          have hrest : rest.map (revokedBlob env st) = rest.map (revokedBlob env st.advance) :=
            List.map_congr_left (fun x _ => (revokedBlob_congr env rfl x).symm)
          simp [hk, hrest, hmap]

theorem buildCrlLoop_quiet (env : Env) (l : List String) (acc bs : List String)
    (st : Storage) (hq : st.quiet) (h : l.map (revokedBlob env st) = bs.map some) :
    ∃ st2, buildCrlLoop env l acc st = (.ok (acc ++ bs), st2) ∧ st2.quiet := by
  induction l generalizing acc bs st with
  | nil =>
    cases bs with
    | nil => exact ⟨st, by simp [buildCrlLoop], hq⟩
    | cons b bs => simp at h
  | cons k rest ih =>
    cases bs with
    | nil => simp at h
    | cons b bs =>
      simp only [List.map_cons, List.cons.injEq] at h
      obtain ⟨hk, hrest⟩ := h
      have hf := Storage.quiet_nextFault hq
      cases hr : st.read ("revoked/" ++ k) with
      | none => simp [revokedBlob, hr] at hk
      | some v =>
        cases hd : env.DecodeJSON v with
        | none => simp [revokedBlob, hr, hd] at hk
        | some c =>
          have hb : c.Certificate = b := by simpa [revokedBlob, hr, hd] using hk
          have hrest1 : rest.map (revokedBlob env st.advance) = bs.map some := by
            rw [← hrest]
            exact List.map_congr_left (fun x _ => revokedBlob_congr env rfl x)
          obtain ⟨st2, h2, hq2⟩ := ih (acc ++ [c.Certificate]) bs st.advance
            (Storage.quiet_advance hq) hrest1
          refine ⟨st2, ?_, hq2⟩
          simp only [buildCrlLoop, Storage.Get_quiet hf, hr, hd, Option.map_some']
          rw [h2, hb]
          simp

theorem buildCrlLoop_error (env : Env) (l : List String) (acc : List String) (st : Storage)
    (h : ∃ k ∈ l, revokedBlob env st k = none) :
    ∃ e, (buildCrlLoop env l acc st).1 = .error e := by
  induction l generalizing acc st with
  | nil => simp at h
  | cons k rest ih =>
    cases hf : st.nextFault with
    | some msg => simp [buildCrlLoop, Storage.Get_fault hf]
    | none =>
      cases hr : st.read ("revoked/" ++ k) with
      | none => simp [buildCrlLoop, Storage.Get_quiet hf, hr]
      | some v =>
        cases hd : env.DecodeJSON v with
        | none => simp [buildCrlLoop, Storage.Get_quiet hf, hr, hd]
        | some c =>
          simp only [buildCrlLoop, Storage.Get_quiet hf, hr, hd, Option.map_some']
          apply ih
          obtain ⟨x, hx, hxn⟩ := h
          rcases List.mem_cons.1 hx with rfl | hx
          · simp [revokedBlob, hr, hd] at hxn
          · exact ⟨x, hx, (revokedBlob_congr env rfl x).trans hxn⟩

namespace Storage

theorem quiet_quietFor {st : Storage} (h : st.quiet) (n : Nat) : st.quietFor n :=
  fun f hf => h f (List.mem_of_mem_take hf)

theorem quietFor_nextFault {st : Storage} {n : Nat} (h : st.quietFor (n + 1)) :
    st.nextFault = none := by
  unfold nextFault
  cases hf : st.faults with
  | nil => rfl
  | cons f fs => exact h f (by simp [hf])

theorem quietFor_advance {st : Storage} {n : Nat} (h : st.quietFor (n + 1)) :
    st.advance.quietFor n := by
  intro f hf
  apply h f
  cases hfs : st.faults with
  | nil => simp [hfs] at hf
  | cons g fs =>
    simp only [advance_faults, hfs, List.tail_cons] at hf
    simp [hf]

end Storage

/-! ## `buildCrl` -/

theorem buildCrl_cases (env : Env) (st : Storage) :
    (∃ e, (buildCrl env st).1 = .error e ∧ (buildCrl env st).2.data = st.data) ∨
    (∃ certs, (buildCrl env st).1 = .ok () ∧
      (st.under "revoked/").map (revokedBlob env st) = certs.map some ∧
      (buildCrl env st).2.data = kvPut st.data "crl" (String.intercalate "\n" certs)) := by
  cases hf : st.nextFault with
  | some msg =>
    left
    simp [buildCrl, Storage.List_fault hf]
  | none =>
    cases hl : buildCrlLoop env (st.under "revoked/") [] st.advance with
    | mk r st2 =>
      have hd : st2.data = st.data := by
        have := buildCrlLoop_data env (st.under "revoked/") [] st.advance
        rw [hl] at this
        simpa using this
      cases r with
      | error e =>
        left
        simp [buildCrl, Storage.List_quiet hf, hl, hd]
      | ok certs =>
        obtain ⟨bs, hbs, hmap⟩ := buildCrlLoop_ok env _ _ _ _ _ hl
        have hmap1 : (st.under "revoked/").map (revokedBlob env st) = certs.map some := by
          rw [hbs, List.nil_append, ← hmap]
          exact List.map_congr_left (fun x _ => (revokedBlob_congr env rfl x).symm)
        cases hf2 : st2.nextFault with
        | some msg =>
          left
          simp [buildCrl, Storage.List_quiet hf, hl, Storage.Put_fault hf2, hd]
        | none =>
          right
          exact ⟨certs, by simp [buildCrl, Storage.List_quiet hf, hl, Storage.Put_quiet hf2],
            hmap1, by simp [buildCrl, Storage.List_quiet hf, hl, Storage.Put_quiet hf2, hd]⟩

theorem buildCrl_quiet (env : Env) (st : Storage) (hq : st.quiet) (certs : List String)
    (h : (st.under "revoked/").map (revokedBlob env st) = certs.map some) :
    (buildCrl env st).1 = .ok () ∧
      (buildCrl env st).2.data = kvPut st.data "crl" (String.intercalate "\n" certs) := by
  have hf := Storage.quiet_nextFault hq
  have h1 : (st.under "revoked/").map (revokedBlob env st.advance) = certs.map some := by
    rw [← h]
    exact List.map_congr_left (fun x _ => revokedBlob_congr env rfl x)
  obtain ⟨st2, h2, hq2⟩ := buildCrlLoop_quiet env _ [] certs st.advance
    (Storage.quiet_advance hq) h1
  have hd : st2.data = st.data := by
    have := buildCrlLoop_data env (st.under "revoked/") [] st.advance
    rw [h2] at this
    simpa using this
  have hf2 := Storage.quiet_nextFault hq2
  simp [buildCrl, Storage.List_quiet hf, h2, Storage.Put_quiet hf2, hd]

theorem buildCrl_undecodable (env : Env) (st : Storage)
    (h : ∃ k ∈ st.under "revoked/", revokedBlob env st k = none) :
    ∃ e, (buildCrl env st).1 = .error e ∧ (buildCrl env st).2.data = st.data := by
  rcases buildCrl_cases env st with herr | ⟨certs, _, hmap, _⟩
  · exact herr
  · exfalso
    obtain ⟨k, hk, hkn⟩ := h
    have : revokedBlob env st k ∈ (st.under "revoked/").map (revokedBlob env st) :=
      List.mem_map_of_mem _ hk
    rw [hmap, hkn] at this
    simp at this

/-! ## The paths through `revokeSSHCertificate` -/

theorem revoke_fault (env : Env) (now : Time) (st : Storage) (s msg : String)
    (hf : st.nextFault = some msg) :
    revokeSSHCertificate env now st s = (.error (.plain msg), st.advance) := by
  simp [revokeSSHCertificate, Storage.Get_fault hf]

theorem revoke_existing (env : Env) (now : Time) (st : Storage) (s v : String)
    (hf : st.nextFault = none) (hr : st.read ("revoked/" ++ s) = some v) :
    revokeSSHCertificate env now st s =
      match env.DecodeJSON v with
      | none => (.error (.internal
          ("Unable to decode existing entry for SSH certificate serial " ++ s)), st.advance)
      | some c => (.ok (c.toRevokedResponse env), st.advance) := by
  simp [revokeSSHCertificate, Storage.Get_quiet hf, hr]

theorem revoke_existing_data (env : Env) (now : Time) (st : Storage) (s v : String)
    (hr : st.read ("revoked/" ++ s) = some v) :
    (revokeSSHCertificate env now st s).2.data = st.data := by
  cases hf : st.nextFault with
  | some msg => simp [revoke_fault env now st s msg hf]
  | none =>
    rw [revoke_existing env now st s v hf hr]
    cases env.DecodeJSON v <;> rfl

theorem revoke_fresh (env : Env) (now : Time) (st : Storage) (s v bytes : String)
    (issued : sshCertificate) (hq : st.quietFor 3)
    (hr : st.read ("revoked/" ++ s) = none) (hc : st.read ("certs/" ++ s) = some v)
    (hd : env.DecodeJSON v = some issued)
    (he : env.EncodeJSON { issued with Revocation := now.UTC } = .ok bytes) :
    revokeSSHCertificate env now st s =
      match buildCrl env (afterRevokedPut st s bytes) with
      | (.error err, st4) => (.error err, st4)
      | (.ok (), st4) =>
        (.ok (sshCertificate.toRevokedResponse env { issued with Revocation := now.UTC }), st4) := by
  have h1 := Storage.quietFor_nextFault hq
  have hq2 := Storage.quietFor_advance hq
  have h2 := Storage.quietFor_nextFault hq2
  have hq3 := Storage.quietFor_advance hq2
  have h3 := Storage.quietFor_nextFault hq3
  simp [revokeSSHCertificate, Storage.Get_quiet h1, Storage.Get_quiet h2, hr, hc, hd,
    StorageEntryJSON, he, Storage.Put_quiet h3, afterRevokedPut]

theorem Storage.quietFor_zero (st : Storage) : st.quietFor 0 := by
  intro f hf
  simp at hf

theorem Storage.quietFor_succ {st : Storage} {n : Nat} (h : st.nextFault = none)
    (ha : st.advance.quietFor n) : st.quietFor (n + 1) := by
  intro f hf
  cases hfs : st.faults with
  | nil => simp [hfs] at hf
  | cons g fs =>
    simp only [hfs, List.take_succ_cons, List.mem_cons] at hf
    rcases hf with rfl | hf
    · simpa [Storage.nextFault, hfs] using h
    · exact ha f (by simpa [hfs] using hf)

/-- Every run of `revokeSSHCertificate` either writes nothing (it fails early, or
finds the serial already revoked), or writes the new revoked record and goes on
to rebuild the CRL. -/
theorem revoke_cases (env : Env) (now : Time) (st : Storage) (s : String) :
    ((revokeSSHCertificate env now st s).2.data = st.data ∧
      ((∃ e, (revokeSSHCertificate env now st s).1 = .error e) ∨
        (∃ v c, st.read ("revoked/" ++ s) = some v ∧ env.DecodeJSON v = some c ∧
          (revokeSSHCertificate env now st s).1 = .ok (c.toRevokedResponse env)))) ∨
    (∃ v issued bytes, st.quietFor 3 ∧ st.read ("revoked/" ++ s) = none ∧
      st.read ("certs/" ++ s) = some v ∧ env.DecodeJSON v = some issued ∧
      env.EncodeJSON { issued with Revocation := now.UTC } = .ok bytes) := by
  cases h1 : st.nextFault with
  | some msg =>
    left
    simp [revoke_fault env now st s msg h1]
  | none =>
    cases hr : st.read ("revoked/" ++ s) with
    | some v =>
      left
      refine ⟨revoke_existing_data env now st s v hr, ?_⟩
      rw [revoke_existing env now st s v h1 hr]
      cases hd : env.DecodeJSON v with
      | none => left; exact ⟨_, rfl⟩
      | some c => right; exact ⟨v, c, rfl, hd, rfl⟩
    | none =>
      cases h2 : st.advance.nextFault with
      | some msg =>
        left
        simp [revokeSSHCertificate, Storage.Get_quiet h1, hr, Storage.Get_fault h2]
      | none =>
        cases hc : st.read ("certs/" ++ s) with
        | none =>
          left
          simp [revokeSSHCertificate, Storage.Get_quiet h1, hr, Storage.Get_quiet h2, hc]
        | some v =>
          cases hd : env.DecodeJSON v with
          | none =>
            left
            simp [revokeSSHCertificate, Storage.Get_quiet h1, hr, Storage.Get_quiet h2, hc, hd]
          | some issued =>
            cases he : env.EncodeJSON { issued with Revocation := now.UTC } with
            | error e =>
              left
              simp [revokeSSHCertificate, Storage.Get_quiet h1, hr, Storage.Get_quiet h2, hc, hd,
                StorageEntryJSON, he]
            | ok bytes =>
              cases h3 : st.advance.advance.nextFault with
              | some msg =>
                left
                simp [revokeSSHCertificate, Storage.Get_quiet h1, hr, Storage.Get_quiet h2, hc,
                  hd, StorageEntryJSON, he, Storage.Put_fault h3]
              | none =>
                right
                exact ⟨v, issued, bytes,
                  Storage.quietFor_succ h1 (Storage.quietFor_succ h2
                    (Storage.quietFor_succ h3 (Storage.quietFor_zero _))),
                  rfl, rfl, hd, he⟩

theorem sampleEnv_roundtrip (c : sshCertificate) (b : String)
    (h : sampleEnv.EncodeJSON c = .ok b) : sampleEnv.DecodeJSON b = some c := by
  simp only [sampleEnv] at h ⊢
  split_ifs at h with h1 h2
  · injection h with h
    subst h
    rw [h1]
    simp [sampleIssued]
  · injection h with h
    subst h
    rw [h2]
    simp [sampleIssued]

/-! ## Lines of a newline-joined body -/

theorem splitOn_append_sep (x : Char) (as bs : List Char) :
    (as ++ x :: bs).splitOn x = as.splitOn x ++ bs.splitOn x := by
  simp only [List.splitOn]
  induction as with
  | nil => simp
  | cons a as ih =>
    have hne : List.splitOnP (fun c => c == x) as ≠ [] := List.splitOnP_ne_nil _ _
    by_cases hax : a = x
    · simp [hax, ih]
    · simp only [List.cons_append, List.splitOnP_cons, beq_iff_eq, hax, if_false, ih]
      cases hs : List.splitOnP (fun c => c == x) as with
      | nil => exact absurd hs hne
      | cons h t => rfl

theorem intercalate_go_data (sep acc : String) (l : List String) :
    (String.intercalate.go acc sep l).data =
      acc.data ++ l.flatMap (fun a => sep.data ++ a.data) := by
  induction l generalizing acc with
  | nil => simp [String.intercalate.go]
  | cons a l ih => simp [String.intercalate.go, ih, List.append_assoc]

theorem splitOn_joined (x : Char) (acc : List Char) (cs : List String) :
    (acc ++ cs.flatMap (fun a => x :: a.data)).splitOn x =
      acc.splitOn x ++ cs.flatMap (fun a => a.data.splitOn x) := by
  induction cs generalizing acc with
  | nil => simp
  | cons c cs ih =>
    rw [List.flatMap_cons, List.cons_append, splitOn_append_sep, ih c.data, List.flatMap_cons]

theorem crlLines_intercalate (certs : List String) (h : certs ≠ []) :
    crlLines (String.intercalate "\n" certs) = certs.flatMap crlLines := by
  cases certs with
  | nil => exact absurd rfl h
  | cons c cs =>
    have hsep : ("\n" : String).data = [Char.ofNat 10] := rfl
    simp only [crlLines, String.intercalate, intercalate_go_data, hsep, List.singleton_append,
      splitOn_joined, List.map_append, List.flatMap_cons, List.map_flatMap]
    rfl

theorem mem_crlLines_intercalate (certs : List String) (h : certs ≠ []) (line : String) :
    line ∈ crlLines (String.intercalate "\n" certs) ↔ ∃ b ∈ certs, line ∈ crlLines b := by
  rw [crlLines_intercalate certs h, List.mem_flatMap]

theorem crlLines_single (b : String) (h : Char.ofNat 10 ∉ b.data) : crlLines b = [b] := by
  have : b.data.splitOn (Char.ofNat 10) = [b.data] := by
    apply List.splitOnP_eq_single
    intro c hc hcx
    rw [beq_iff_eq] at hcx
    exact h (hcx ▸ hc)
  simp [crlLines, this]

theorem mem_crlLines_of_mem (certs : List String) (b : String) (hb : b ∈ certs)
    (h : Char.ofNat 10 ∉ b.data) : b ∈ crlLines (String.intercalate "\n" certs) := by
  rw [mem_crlLines_intercalate certs (List.ne_nil_of_mem hb)]
  exact ⟨b, hb, by simp [crlLines_single b h]⟩

theorem crlComplete_congr (env : Env) {st st1 : Storage} (h : st1.data = st.data)
    (hc : CrlComplete env st) : CrlComplete env st1 := by
  intro k blob hk hn
  rw [revokedBlob_congr env h k] at hk
  obtain ⟨body, hb, hl⟩ := hc k blob hk hn
  exact ⟨body, by simpa only [Storage.read, h] using hb, hl⟩

/-- A successful revocation of a serial that was not revoked before leaves a
complete CRL. -/
theorem revoke_fresh_complete (env : Env) (now : Time) (st : Storage) (s : String)
    (r : Response) (hr : st.read ("revoked/" ++ s) = none)
    (hok : (revokeSSHCertificate env now st s).1 = .ok r) :
    CrlComplete env (revokeSSHCertificate env now st s).2 := by
  rcases revoke_cases env now st s with ⟨_, herr | ⟨v1, c, hr1, _, _⟩⟩ |
    ⟨v, issued, bytes, hq, _, hc, hd, he⟩
  · obtain ⟨e, he⟩ := herr
    rw [he] at hok
    cases hok
  · rw [hr] at hr1
    cases hr1
  · rw [revoke_fresh env now st s v bytes issued hq hr hc hd he] at hok ⊢
    rcases buildCrl_cases env (afterRevokedPut st s bytes) with ⟨e, hbe, _⟩ |
      ⟨certs, hbo, hmap, hbd⟩
    · cases hb : buildCrl env (afterRevokedPut st s bytes) with
      | mk r1 st4 =>
        rw [hb] at hbe hok
        simp only at hbe
        subst hbe
        simp at hok
    · cases hb : buildCrl env (afterRevokedPut st s bytes) with
      | mk r1 st4 =>
        rw [hb] at hbo hbd
        simp only at hbo hbd
        subst hbo
        simp only
        have hread : ∀ k, k ≠ "crl" → st4.read k = (afterRevokedPut st s bytes).read k := by
          intro k hk
          simp only [Storage.read, hbd]
          exact kvGet_kvPut_ne _ _ _ _ hk
        intro k blob hk hn
        have hk3 : revokedBlob env (afterRevokedPut st s bytes) k = some blob := by
          simpa only [revokedBlob, hread _ (revoked_ne_crl k)] using hk
        have hmem : k ∈ (afterRevokedPut st s bytes).under "revoked/" := by
          rw [Storage.mem_under]
          cases hrd : (afterRevokedPut st s bytes).read ("revoked/" ++ k) with
          | none => simp [revokedBlob, hrd] at hk3
          | some w => rfl
        have hblob : blob ∈ certs := by
          have : revokedBlob env (afterRevokedPut st s bytes) k ∈
              ((afterRevokedPut st s bytes).under "revoked/").map
                (revokedBlob env (afterRevokedPut st s bytes)) := List.mem_map_of_mem _ hmem
          rw [hmap, hk3] at this
          simpa using this
        refine ⟨String.intercalate "\n" certs, ?_, mem_crlLines_of_mem certs blob hblob hn⟩
        simp only [Storage.read, hbd]
        exact kvGet_kvPut_same _ _ _

/-- Whatever its outcome, `revokeSSHCertificate` for `s` touches no key other than
`revoked/<s>` and `crl`. -/
theorem revoke_frame (env : Env) (now : Time) (st : Storage) (s k : String)
    (h1 : k ≠ "revoked/" ++ s) (h2 : k ≠ "crl") :
    (revokeSSHCertificate env now st s).2.read k = st.read k := by
  rcases revoke_cases env now st s with ⟨hdata, _⟩ | ⟨v, issued, bytes, hq, hr, hc, hd, he⟩
  · simp only [Storage.read, hdata]
  · rw [revoke_fresh env now st s v bytes issued hq hr hc hd he]
    have h3 : (afterRevokedPut st s bytes).read k = st.read k := by
      simp only [afterRevokedPut, Storage.read]
      exact kvGet_kvPut_ne _ _ _ _ h1
    rcases buildCrl_cases env (afterRevokedPut st s bytes) with ⟨e, _, hbd⟩ |
      ⟨certs, _, _, hbd⟩
    · cases hb : buildCrl env (afterRevokedPut st s bytes) with
      | mk r1 st4 =>
        rw [hb] at hbd
        simp only at hbd
        cases r1 with
        | error e1 =>
          simp only
          rw [← h3]
          simp only [Storage.read, hbd]
        | ok u =>
          simp only
          rw [← h3]
          simp only [Storage.read, hbd]
    · cases hb : buildCrl env (afterRevokedPut st s bytes) with
      | mk r1 st4 =>
        rw [hb] at hbd
        simp only at hbd
        have h4 : st4.read k = st.read k := by
          rw [← h3]
          simp only [Storage.read, hbd]
          exact kvGet_kvPut_ne _ _ _ _ h2
        cases r1 with
        | error e1 => exact h4
        | ok u => exact h4

/-- When the rebuild fails after the revoked record was written, the revocation
returns the rebuild's error and the revoked record stays. -/
theorem revoke_fresh_rebuild_error (env : Env) (now : Time) (st : Storage)
    (s v bytes : String) (issued : sshCertificate) (e : Error) (hq : st.quietFor 3)
    (hr : st.read ("revoked/" ++ s) = none) (hc : st.read ("certs/" ++ s) = some v)
    (hd : env.DecodeJSON v = some issued)
    (he : env.EncodeJSON { issued with Revocation := now.UTC } = .ok bytes)
    (hb : (buildCrl env (afterRevokedPut st s bytes)).1 = .error e) :
    (revokeSSHCertificate env now st s).1 = .error e ∧
    (revokeSSHCertificate env now st s).2.read ("revoked/" ++ s) = some bytes := by
  rw [revoke_fresh env now st s v bytes issued hq hr hc hd he]
  rcases buildCrl_cases env (afterRevokedPut st s bytes) with ⟨e1, hbe, hbd⟩ |
    ⟨certs, hbo, _, _⟩
  · cases hres : buildCrl env (afterRevokedPut st s bytes) with
    | mk r st4 =>
      rw [hres] at hb hbd
      simp only at hb hbd
      subst hb
      refine ⟨rfl, ?_⟩
      simp only [Storage.read, hbd, afterRevokedPut]
      exact kvGet_kvPut_same _ _ _
  · rw [hbo] at hb
    cases hb

theorem crlSound_congr (env : Env) {st st1 : Storage} (h : st1.data = st.data)
    (hc : CrlSound env st) : CrlSound env st1 := by
  intro body hb
  obtain ⟨certs, hne, hbody, hall⟩ := hc body (by simpa only [Storage.read, h] using hb)
  refine ⟨certs, hne, hbody, fun b hbm => ?_⟩
  obtain ⟨k, hk⟩ := hall b hbm
  exact ⟨k, (revokedBlob_congr env h k).trans hk⟩

theorem crlSound_revoke (env : Env) (now : Time) (st : Storage) (s : String)
    (h : CrlSound env st) : CrlSound env (revokeSSHCertificate env now st s).2 := by
  rcases revoke_cases env now st s with ⟨hdata, _⟩ | ⟨v, issued, bytes, hq, hr, hc, hd, he⟩
  · exact crlSound_congr env hdata h
  · rw [revoke_fresh env now st s v bytes issued hq hr hc hd he]
    have hkeep : ∀ k b, revokedBlob env st k = some b →
        revokedBlob env (afterRevokedPut st s bytes) k = some b := by
      intro k b hk
      have hks : "revoked/" ++ k ≠ "revoked/" ++ s := by
        intro hEq
        simp [revokedBlob, hEq, hr] at hk
      simpa only [revokedBlob, afterRevokedPut, Storage.read, kvGet_kvPut_ne _ _ _ _ hks] using hk
    have h3 : CrlSound env (afterRevokedPut st s bytes) := by
      intro body hb
      have hb0 : st.read "crl" = some body := by
        simpa only [afterRevokedPut, Storage.read,
          kvGet_kvPut_ne _ _ _ _ (revoked_ne_crl s).symm] using hb
      obtain ⟨certs, hne, hbody, hall⟩ := h body hb0
      refine ⟨certs, hne, hbody, fun b hbm => ?_⟩
      obtain ⟨k, hk⟩ := hall b hbm
      exact ⟨k, hkeep k b hk⟩
    rcases buildCrl_cases env (afterRevokedPut st s bytes) with ⟨e, hbe, hbd⟩ |
      ⟨certs, hbo, hmap, hbd⟩
    · cases hb : buildCrl env (afterRevokedPut st s bytes) with
      | mk r1 st4 =>
        rw [hb] at hbd
        simp only at hbd
        cases r1 with
        | error e1 => exact crlSound_congr env hbd h3
        | ok u => exact crlSound_congr env hbd h3
    · cases hb : buildCrl env (afterRevokedPut st s bytes) with
      | mk r1 st4 =>
        rw [hb] at hbo hbd
        simp only at hbo hbd
        subst hbo
        simp only
        have hread : ∀ k, k ≠ "crl" → st4.read k = (afterRevokedPut st s bytes).read k := by
          intro k hk
          simp only [Storage.read, hbd]
          exact kvGet_kvPut_ne _ _ _ _ hk
        have hsmem : s ∈ (afterRevokedPut st s bytes).under "revoked/" := by
          rw [Storage.mem_under]
          simp [afterRevokedPut, Storage.read, kvGet_kvPut_same]
        intro body hbody
        have hcrl : st4.read "crl" = some (String.intercalate "\n" certs) := by
          simp only [Storage.read, hbd]
          exact kvGet_kvPut_same _ _ _
        rw [hcrl] at hbody
        injection hbody with hbody
        refine ⟨certs, ?_, hbody.symm, ?_⟩
        · intro hnil
          rw [hnil] at hmap
          have := congrArg List.length hmap
          simp only [List.length_map, List.length_nil] at this
          exact List.ne_nil_of_mem hsmem (List.length_eq_zero.1 this)
        · intro b hbm
          have : some b ∈ ((afterRevokedPut st s bytes).under "revoked/").map
              (revokedBlob env (afterRevokedPut st s bytes)) := by
            rw [hmap]
            exact List.mem_map_of_mem _ hbm
          obtain ⟨k, _, hk⟩ := List.mem_map.1 this
          refine ⟨k, ?_⟩
          simpa only [revokedBlob, hread _ (revoked_ne_crl k)] using hk

theorem crlSound_revokeAll (env : Env) (st : Storage)
    (calls : List (Time × String × List (Option String))) (h : CrlSound env st) :
    CrlSound env (revokeAll env st calls) := by
  induction calls generalizing st with
  | nil => exact h
  | cons call rest ih =>
    obtain ⟨now, serial, fs⟩ := call
    exact ih _ (crlSound_revoke env now _ serial (crlSound_congr env rfl h))

theorem length_eq_zero_iff (s : String) : s.length = 0 ↔ s = "" := by
  constructor
  · intro h
    cases s with
    | mk l =>
      have hl : l = [] := List.length_eq_zero.1 h
      subst hl
      rfl
  · intro h
    subst h
    rfl

/-! ## `pathRoleCreate` -/

theorem persistRole_stored (renv : RoleEnv) (st : Storage) (data : RoleFields)
    (ttl maxTTL : Int) :
    persistRole renv st data.name
        { MaxTTL := data.max_ttl,
          TTL := data.ttl,
          DefaultCriticalOptions := [],
          DefaultExtensions := [],
          AllowedCriticalOptions := data.allowed_critical_options,
          AllowedExtensions := data.allowed_extensions,
          AllowUserCertificates := data.allow_user_certificates,
          AllowHostCertificates := data.allow_host_certificates,
          AllowedValidPrincipals := data.allowed_valid_principals,
          AllowBareDomains := data.allow_bare_domains,
          AllowSubdomains := data.allow_subdomains }
        (convertMapToStringValue renv data.default_critical_options)
        (convertMapToStringValue renv data.default_extensions) ttl maxTTL =
      match renv.EncodeRole (storedRole renv data ttl maxTTL) with
      | .error err => (.error err, st)
      | .ok bytes =>
        match st.nextFault with
        | some msg => (.error (.plain msg), st.advance)
        | none => (.ok none,
            { data := kvPut st.data ("role/" ++ data.name) bytes, faults := st.faults.tail }) := by
  simp only [persistRole, storedRole]
  cases renv.EncodeRole _ with
  | error err => rfl
  | ok bytes =>
    cases hf : st.nextFault with
    | some msg => simp [Storage.Put_fault hf]
    | none => simp [Storage.Put_quiet hf]

/-- What `pathRoleCreate` does once the two durations are resolved: `ttl0` is the
parsed `ttl` field, or the system default when the field is empty. -/
theorem pathRoleCreate_resolved (renv : RoleEnv) (sys : SystemView) (st : Storage)
    (data : RoleFields) (ttl0 maxTTL : Int)
    (hm : ResolvesMaxTTL renv sys data maxTTL) (hle : maxTTL ≤ sys.MaxLeaseTTL)
    (ht : (data.ttl = "" ∧ ttl0 = sys.DefaultLeaseTTL) ∨
      (data.ttl ≠ "" ∧ renv.ParseDuration data.ttl = .ok ttl0)) :
    pathRoleCreate renv sys st data =
      if ttl0 > maxTTL then
        if data.ttl = "" then
          match renv.EncodeRole (storedRole renv data maxTTL maxTTL) with
          | .error err => (.error err, st)
          | .ok bytes =>
            match st.nextFault with
            | some msg => (.error (.plain msg), st.advance)
            | none => (.ok none,
                { data := kvPut st.data ("role/" ++ data.name) bytes, faults := st.faults.tail })
        else
          (.ok (some (ErrorResponse
            "\"ttl\" value must be less than \"max_ttl\" and/or backend default max lease TTL value")),
            st)
      else
        match renv.EncodeRole (storedRole renv data ttl0 maxTTL) with
        | .error err => (.error err, st)
        | .ok bytes =>
          match st.nextFault with
          | some msg => (.error (.plain msg), st.advance)
          | none => (.ok none,
              { data := kvPut st.data ("role/" ++ data.name) bytes, faults := st.faults.tail }) := by
  have hmax : (if data.max_ttl.length = 0 then (Except.ok sys.MaxLeaseTTL : Except String Int)
      else renv.ParseDuration data.max_ttl) = .ok maxTTL := by
    rcases hm with ⟨h1, h2⟩ | ⟨h1, h2⟩
    · simp [h1, h2]
    · have : ¬ data.max_ttl.length = 0 := fun h => h1 ((length_eq_zero_iff _).1 h)
      simp [this, h2]
  have httl : (if data.ttl.length ≠ 0 then renv.ParseDuration data.ttl
      else (Except.ok sys.DefaultLeaseTTL : Except String Int)) = .ok ttl0 := by
    rcases ht with ⟨h1, h2⟩ | ⟨h1, h2⟩
    · simp [h1, h2]
    · have : ¬ data.ttl.length = 0 := fun h => h1 ((length_eq_zero_iff _).1 h)
      simp [this, h2]
  have hnot : ¬ maxTTL > sys.MaxLeaseTTL := not_lt.2 hle
  have hlen : (data.ttl.length = 0) = (data.ttl = "") := propext (length_eq_zero_iff _)
  unfold pathRoleCreate
  simp only [hmax, httl, hnot, if_false, hlen]
  split_ifs <;> first | rfl | exact persistRole_stored renv st data _ _

end Vault
namespace Vault

theorem pathRoleCreate_bad_max_ttl (renv : RoleEnv) (sys : SystemView) (st : Storage)
    (data : RoleFields) (e : String) (h1 : data.max_ttl ≠ "")
    (h2 : renv.ParseDuration data.max_ttl = .error e) :
    pathRoleCreate renv sys st data = (.ok (some (ErrorResponse ("Invalid ttl: " ++ e))), st) := by
  have : ¬ data.max_ttl.length = 0 := fun h => h1 ((length_eq_zero_iff _).1 h)
  unfold pathRoleCreate
  simp only [this, if_false, h2]

theorem pathRoleCreate_max_too_high (renv : RoleEnv) (sys : SystemView) (st : Storage)
    (data : RoleFields) (maxTTL : Int) (hm : ResolvesMaxTTL renv sys data maxTTL)
    (hgt : maxTTL > sys.MaxLeaseTTL) :
    pathRoleCreate renv sys st data =
      (.ok (some (ErrorResponse "Requested max TTL is higher than backend maximum")), st) := by
  have hmax : (if data.max_ttl.length = 0 then (Except.ok sys.MaxLeaseTTL : Except String Int)
      else renv.ParseDuration data.max_ttl) = .ok maxTTL := by
    rcases hm with ⟨h1, h2⟩ | ⟨h1, h2⟩
    · simp [h1, h2]
    · have : ¬ data.max_ttl.length = 0 := fun h => h1 ((length_eq_zero_iff _).1 h)
      simp [this, h2]
  unfold pathRoleCreate
  simp only [hmax, hgt, if_true]

theorem pathRoleCreate_bad_ttl (renv : RoleEnv) (sys : SystemView) (st : Storage)
    (data : RoleFields) (maxTTL : Int) (e : String)
    (hm : ResolvesMaxTTL renv sys data maxTTL) (hle : maxTTL ≤ sys.MaxLeaseTTL)
    (h1 : data.ttl ≠ "") (h2 : renv.ParseDuration data.ttl = .error e) :
    pathRoleCreate renv sys st data = (.ok (some (ErrorResponse ("Invalid ttl: " ++ e))), st) := by
  have hmax : (if data.max_ttl.length = 0 then (Except.ok sys.MaxLeaseTTL : Except String Int)
      else renv.ParseDuration data.max_ttl) = .ok maxTTL := by
    rcases hm with ⟨h1, h2⟩ | ⟨h1, h2⟩
    · simp [h1, h2]
    · have : ¬ data.max_ttl.length = 0 := fun h => h1 ((length_eq_zero_iff _).1 h)
      simp [this, h2]
  have hnot : ¬ maxTTL > sys.MaxLeaseTTL := not_lt.2 hle
  have hlen : data.ttl.length ≠ 0 := fun h => h1 ((length_eq_zero_iff _).1 h)
  unfold pathRoleCreate
  simp only [hmax, hnot, if_false, hlen, if_true, h2, ne_eq, not_false_eq_true]

/-- A call of `pathRoleCreate` that stores a role: the durations it resolved and
the storage it leaves. -/
theorem pathRoleCreate_ok_inv (renv : RoleEnv) (sys : SystemView) (st : Storage)
    (data : RoleFields) (hok : (pathRoleCreate renv sys st data).1 = .ok none) :
    ∃ t m bytes, ResolvesMaxTTL renv sys data m ∧ m ≤ sys.MaxLeaseTTL ∧ t ≤ m ∧
      ((data.ttl = "" ∧ t = min sys.DefaultLeaseTTL m) ∨
        (data.ttl ≠ "" ∧ renv.ParseDuration data.ttl = .ok t)) ∧
      renv.EncodeRole (storedRole renv data t m) = .ok bytes ∧
      pathRoleCreate renv sys st data = (.ok none,
        { data := kvPut st.data ("role/" ++ data.name) bytes, faults := st.faults.tail }) := by
  -- the resolved `max_ttl`
  have hm : ∃ m, ResolvesMaxTTL renv sys data m := by
    by_cases h1 : data.max_ttl = ""
    · exact ⟨sys.MaxLeaseTTL, Or.inl ⟨h1, rfl⟩⟩
    · cases h2 : renv.ParseDuration data.max_ttl with
      | error e =>
        rw [pathRoleCreate_bad_max_ttl renv sys st data e h1 h2] at hok
        simp at hok
      | ok m => exact ⟨m, Or.inr ⟨h1, h2⟩⟩
  obtain ⟨m, hm⟩ := hm
  have hle : m ≤ sys.MaxLeaseTTL := by
    by_contra hgt
    rw [pathRoleCreate_max_too_high renv sys st data m hm (not_le.1 hgt)] at hok
    simp at hok
  -- the resolved `ttl`
  have ht : ∃ t0, (data.ttl = "" ∧ t0 = sys.DefaultLeaseTTL) ∨
      (data.ttl ≠ "" ∧ renv.ParseDuration data.ttl = .ok t0) := by
    by_cases h1 : data.ttl = ""
    · exact ⟨sys.DefaultLeaseTTL, Or.inl ⟨h1, rfl⟩⟩
    · cases h2 : renv.ParseDuration data.ttl with
      | error e =>
        rw [pathRoleCreate_bad_ttl renv sys st data m e hm hle h1 h2] at hok
        simp at hok
      | ok t0 => exact ⟨t0, Or.inr ⟨h1, rfl⟩⟩
  obtain ⟨t0, ht⟩ := ht
  have hres := pathRoleCreate_resolved renv sys st data t0 m hm hle ht
  rw [hres] at hok ⊢
  by_cases hgt : t0 > m
  · by_cases hempty : data.ttl = ""
    · rw [if_pos hgt, if_pos hempty] at hok ⊢
      cases he : renv.EncodeRole (storedRole renv data m m) with
      | error err => simp [he] at hok
      | ok bytes =>
        cases hf : st.nextFault with
        | some msg => simp [he, hf] at hok
        | none =>
          refine ⟨m, m, bytes, hm, hle, le_refl m, Or.inl ⟨hempty, ?_⟩, he, rfl⟩
          rcases ht with ⟨_, h2⟩ | ⟨h1, _⟩
          · rw [← h2]
            exact (min_eq_right (le_of_lt hgt)).symm
          · exact absurd hempty h1
    · simp [hgt, hempty] at hok
  · rw [if_neg hgt] at hok ⊢
    cases he : renv.EncodeRole (storedRole renv data t0 m) with
    | error err => simp [he] at hok
    | ok bytes =>
      cases hf : st.nextFault with
      | some msg => simp [he, hf] at hok
      | none =>
        refine ⟨t0, m, bytes, hm, hle, not_lt.1 hgt, ?_, he, rfl⟩
        rcases ht with ⟨h1, h2⟩ | ⟨h1, h2⟩
        · left
          refine ⟨h1, ?_⟩
          rw [← h2]
          exact (min_eq_left (not_lt.1 hgt)).symm
        · exact Or.inr ⟨h1, h2⟩

/-! ## The sample duration codec round-trips -/

theorem digitChar_spec : ∀ k, k < 10 →
    (digitChar k ≠ '-' ∧ (digitChar k).isDigit = true ∧ (digitChar k).toNat - 48 = k) := by
  decide

theorem evalLE_sign (neg : Bool) :
    evalLE (if neg = true then ['-'] else []) = some (0, neg) := by
  cases neg <;> rfl

theorem evalLE_digitsLE (neg : Bool) (fuel n : Nat) (h : n < fuel) :
    evalLE (digitsLE fuel n ++ (if neg = true then ['-'] else [])) = some (n, neg) := by
  induction fuel generalizing n with
  | zero => exact absurd h (Nat.not_lt_zero n)
  | succ fuel ih =>
    by_cases hn : n < 10
    · obtain ⟨h1, h2, h3⟩ := digitChar_spec n hn
      simp only [digitsLE, hn, if_true, List.singleton_append, evalLE, h1, false_and, if_false,
        h2, evalLE_sign, Option.map_some', h3]
      simp
    · obtain ⟨h1, h2, h3⟩ := digitChar_spec (n % 10) (Nat.mod_lt n (by decide))
      have hlt : n / 10 < fuel := by omega
      simp only [digitsLE, hn, if_false, List.cons_append, evalLE, h1, false_and, h2, if_true,
        ih (n / 10) hlt, Option.map_some', h3]
      have : n / 10 * 10 + n % 10 = n := by omega
      rw [this]

theorem parseNanos_nanosString (d : Int) : parseNanos (nanosString d) = some d := by
  have hrev : (nanosString d).data.reverse =
      's' :: 'n' :: (digitsLE (d.natAbs + 1) d.natAbs ++
        (if decide (d < 0) = true then ['-'] else [])) := by
    simp [nanosString]
  have hev := evalLE_digitsLE (decide (d < 0)) (d.natAbs + 1) d.natAbs (Nat.lt_succ_self _)
  unfold parseNanos
  rw [hrev]
  simp only []
  rw [hev]
  simp only [Option.map_some', decide_eq_true_eq]
  by_cases hd : d < 0
  · have : -(d.natAbs : Int) = d := by omega
    simp only [hd, if_true, this]
  · have : (d.natAbs : Int) = d := by omega
    simp only [hd, if_false, this]

theorem sampleDuration_roundtrip (d : Int) :
    sampleParseDuration (sampleDurationString d) = .ok d := by
  unfold sampleDurationString
  split_ifs with h1 h2 h3
  · subst h1
    decide
  · subst h2
    decide
  · subst h3
    decide
  · simp [sampleParseDuration, parseNanos_nanosString]

theorem sampleDuration_not_placeholder (d : Int) :
    sampleDurationString d ≠ "" ∧ sampleDurationString d ≠ "(system default)" ∧
      sampleDurationString d ≠ "(system default, capped to role max)" := by
  have h := sampleDuration_roundtrip d
  have h1 : sampleParseDuration "" = .error "time: invalid duration " := by decide
  have h2 : sampleParseDuration "(system default)" =
      .error "time: invalid duration (system default)" := by decide
  have h3 : sampleParseDuration "(system default, capped to role max)" =
      .error "time: invalid duration (system default, capped to role max)" := by decide
  refine ⟨?_, ?_, ?_⟩
  · intro he
    rw [he, h1] at h
    cases h
  · intro he
    rw [he, h2] at h
    cases h
  · intro he
    rw [he, h3] at h
    cases h

theorem sampleRole_roundtrip (r : roleEntry) (b : String)
    (h : sampleRoleEnv.EncodeRole r = .ok b) : sampleRoleEnv.DecodeRole b = .ok r := by
  simp only [sampleRoleEnv] at h ⊢
  split_ifs at h with h1 h2 h3
  · injection h with h
    subst h
    subst h1
    decide
  · injection h with h
    subst h
    subst h2
    decide
  · injection h with h
    subst h
    subst h3
    decide

/-! # The claims -/

/-- C1: revoking a serial twice gives the same response both times. Whenever the
first call of `revokeSSHCertificate` for `s` succeeds with response `r1`, a second
call on the storage it left (any later clock reading `now2`, the JSON codec
round-tripping, the storage read not failing) succeeds with the very same
response `r1`, hence the same `revocation_time`; and when `s` was not yet revoked
before the first call, that time is the instant `now1` the first call stamped. -/
theorem revoke_twice_same_revocation_time (env : Env) (now1 now2 : Time) (st st1 : Storage)
    (s : String) (r1 : Response)
    (hrt : ∀ c b, env.EncodeJSON c = .ok b → env.DecodeJSON b = some c)
    (h1 : (revokeSSHCertificate env now1 st s).1 = .ok r1)
    (hst1 : st1.data = (revokeSSHCertificate env now1 st s).2.data)
    (hf : st1.nextFault = none) :
    (revokeSSHCertificate env now2 st1 s).1 = .ok r1 ∧
      (st.read ("revoked/" ++ s) = none →
        r1.Data = [("revocation_time", .int now1.Unix),
          ("revocation_time_rfc3339", .str (env.FormatRFC3339Nano now1.UTC))]) := by
  rcases revoke_cases env now1 st s with ⟨hdata, herr | ⟨v, c, hr, hd, hok⟩⟩ |
    ⟨v, issued, bytes, hq, hr, hc, hd, he⟩
  · obtain ⟨e, he⟩ := herr
    rw [he] at h1
    cases h1
  · rw [hok] at h1
    injection h1 with h1
    subst h1
    have hr1 : st1.read ("revoked/" ++ s) = some v := by
      simp only [Storage.read, hst1, hdata]
      exact hr
    constructor
    · rw [revoke_existing env now2 st1 s v hf hr1, hd]
    · intro hn
      rw [hn] at hr
      cases hr
  · rw [revoke_fresh env now1 st s v bytes issued hq hr hc hd he] at h1 hst1
    rcases buildCrl_cases env (afterRevokedPut st s bytes) with ⟨e, hbe, _⟩ |
      ⟨certs, hbo, _, hbd⟩
    · cases hb : buildCrl env (afterRevokedPut st s bytes) with
      | mk r st4 =>
        rw [hb] at hbe h1
        simp only at hbe
        subst hbe
        simp at h1
    · cases hb : buildCrl env (afterRevokedPut st s bytes) with
      | mk r st4 =>
        rw [hb] at hbo hbd h1 hst1
        simp only at hbo hbd
        subst hbo
        simp only [Except.ok.injEq] at h1
        subst h1
        have hr1 : st1.read ("revoked/" ++ s) = some bytes := by
          simp only [Storage.read, hst1, hbd]
          rw [kvGet_kvPut_ne _ _ _ _ (revoked_ne_crl s)]
          exact kvGet_kvPut_same _ _ _
        constructor
        · rw [revoke_existing env now2 st1 s bytes hf hr1, hrt _ _ he]
        · intro _
          rfl

/-- Witness for C1 on the sample store: serial `a` is revoked at `sampleNow` and
again at `sampleLater`; both calls answer `sampleResponse`. -/
theorem revoke_twice_same_revocation_time_witness :
    (revokeSSHCertificate sampleEnv sampleNow sampleStore "a").1 = .ok sampleResponse ∧
    ((revokeSSHCertificate sampleEnv sampleLater
        (revokeSSHCertificate sampleEnv sampleNow sampleStore "a").2 "a").1 =
      .ok sampleResponse ∧
    (sampleStore.read ("revoked/" ++ "a") = none →
      sampleResponse.Data = [("revocation_time", .int sampleNow.Unix),
          ("revocation_time_rfc3339", .str (sampleEnv.FormatRFC3339Nano sampleNow.UTC))])) :=
  ⟨by decide, revoke_twice_same_revocation_time sampleEnv sampleNow sampleLater sampleStore
    (revokeSSHCertificate sampleEnv sampleNow sampleStore "a").2 "a" sampleResponse
    sampleEnv_roundtrip (by decide) rfl (by decide)⟩

/-- C2: an already revoked serial is revoked again without any write. When a
record `revoked/<s>` exists, `revokeSSHCertificate` for `s` leaves every key of
the storage with the value it had, `crl` and `revoked/<s>` included. So when a
first revocation of a not yet revoked `s` succeeds, a second one (any clock, any
storage behaviour) leaves the storage of the first: the `crl` record is the one
the first call built, the newline-join of the certificates of an enumeration
`listing` of all revoked serials that names `s` exactly once. -/
theorem revoke_existing_no_write (env : Env) (now now2 : Time) (st : Storage) (s : String)
    (fs : List (Option String)) :
    (∀ v, st.read ("revoked/" ++ s) = some v →
      ∀ k, (revokeSSHCertificate env now st s).2.read k = st.read k) ∧
    (∀ r1, st.read ("revoked/" ++ s) = none →
      (revokeSSHCertificate env now st s).1 = .ok r1 →
      (∀ k, (revokeSSHCertificate env now2
          { data := (revokeSSHCertificate env now st s).2.data, faults := fs } s).2.read k =
        (revokeSSHCertificate env now st s).2.read k) ∧
      ∃ listing certs : List String, listing.count s = 1 ∧
        (∀ k, k ∈ listing ↔ ((revokeSSHCertificate env now st s).2.read ("revoked/" ++ k)).isSome) ∧
        listing.map (revokedBlob env (revokeSSHCertificate env now st s).2) = certs.map some ∧
        (revokeSSHCertificate env now st s).2.read "crl" =
          some (String.intercalate "\n" certs)) := by
  constructor
  · intro v hv k
    simp only [Storage.read, revoke_existing_data env now st s v hv]
  · intro r1 hr h1
    rcases revoke_cases env now st s with ⟨_, herr | ⟨v, c, hr1, _, _⟩⟩ |
      ⟨v, issued, bytes, hq, _, hc, hd, he⟩
    · obtain ⟨e, he⟩ := herr
      rw [he] at h1
      cases h1
    · rw [hr] at hr1
      cases hr1
    · rw [revoke_fresh env now st s v bytes issued hq hr hc hd he] at h1 ⊢
      rcases buildCrl_cases env (afterRevokedPut st s bytes) with ⟨e, hbe, _⟩ |
        ⟨certs, hbo, hmap, hbd⟩
      · cases hb : buildCrl env (afterRevokedPut st s bytes) with
        | mk r st4 =>
          rw [hb] at hbe h1
          simp only at hbe
          subst hbe
          simp at h1
      · cases hb : buildCrl env (afterRevokedPut st s bytes) with
        | mk r st4 =>
          rw [hb] at hbo hbd
          simp only at hbo hbd
          subst hbo
          simp only
          have hread : ∀ k, k ≠ "crl" → st4.read k = (afterRevokedPut st s bytes).read k := by
            intro k hk
            simp only [Storage.read, hbd]
            exact kvGet_kvPut_ne _ _ _ _ hk
          have hrs : st4.read ("revoked/" ++ s) = some bytes := by
            rw [hread _ (revoked_ne_crl s)]
            exact kvGet_kvPut_same _ _ _
          constructor
          · intro k
            have := revoke_existing_data env now2 { data := st4.data, faults := fs } s bytes hrs
            simp only [Storage.read, this]
          · refine ⟨(afterRevokedPut st s bytes).under "revoked/", certs, ?_, ?_, ?_, ?_⟩
            · apply List.count_eq_one_of_mem (Storage.nodup_under _ _)
              rw [Storage.mem_under]
              simp [afterRevokedPut, Storage.read, kvGet_kvPut_same]
            · intro k
              rw [Storage.mem_under, hread _ (revoked_ne_crl k)]
            · rw [← hmap]
              apply List.map_congr_left
              intro k _
              simp only [revokedBlob, hread _ (revoked_ne_crl k)]
            · simp only [Storage.read, hbd]
              exact kvGet_kvPut_same _ _ _

/-- Witness for C2: on the sample store serial `a` is revoked twice; the second
call leaves the `crl` record built by the first. -/
theorem revoke_existing_no_write_witness :
    (revokeSSHCertificate sampleEnv sampleNow sampleStore "a").1 = .ok sampleResponse ∧
    ∀ k, (revokeSSHCertificate sampleEnv sampleLater
        { data := (revokeSSHCertificate sampleEnv sampleNow sampleStore "a").2.data,
          faults := [] } "a").2.read k =
      (revokeSSHCertificate sampleEnv sampleNow sampleStore "a").2.read k :=
  ⟨by decide, ((revoke_existing_no_write sampleEnv sampleNow sampleLater sampleStore "a" []).2
    sampleResponse (by decide) (by decide)).1⟩

/-- C3: an unknown serial is refused and nothing is written. When neither
`revoked/<s>` nor `certs/<s>` exists, `revokeSSHCertificate` returns an error and
every key of the storage keeps its value (no revoked record appears, `crl` is not
rewritten); when its two storage reads go through, the error is the
unknown-serial error of the source. -/
theorem revoke_unknown_serial (env : Env) (now : Time) (st : Storage) (s : String)
    (hr : st.read ("revoked/" ++ s) = none) (hc : st.read ("certs/" ++ s) = none) :
    (∃ e, (revokeSSHCertificate env now st s).1 = .error e) ∧
    (∀ k, (revokeSSHCertificate env now st s).2.read k = st.read k) ∧
    (st.quietFor 2 → (revokeSSHCertificate env now st s).1 =
      .error (.plain ("Unnknown certificate serial number '" ++ s ++ "'"))) := by
  refine ⟨?_, ?_, ?_⟩
  · rcases revoke_cases env now st s with ⟨_, herr | ⟨v, c, hr1, _, _⟩⟩ |
      ⟨v, issued, bytes, _, _, hc1, _, _⟩
    · exact herr
    · rw [hr] at hr1
      cases hr1
    · rw [hc] at hc1
      cases hc1
  · intro k
    rcases revoke_cases env now st s with ⟨hdata, _⟩ | ⟨v, issued, bytes, _, _, hc1, _, _⟩
    · simp only [Storage.read, hdata]
    · rw [hc] at hc1
      cases hc1
  · intro hq
    have h1 := Storage.quietFor_nextFault hq
    have h2 := Storage.quietFor_nextFault (Storage.quietFor_advance hq)
    simp [revokeSSHCertificate, Storage.Get_quiet h1, hr, Storage.Get_quiet h2, hc]

/-- Witness for C3: serial `b` is unknown to the sample store. -/
theorem revoke_unknown_serial_witness :
    (revokeSSHCertificate sampleEnv sampleNow sampleStore "b").1 =
      .error (.plain "Unnknown certificate serial number 'b'") ∧
    (revokeSSHCertificate sampleEnv sampleNow sampleStore "b").2.read "crl" = none :=
  ⟨(revoke_unknown_serial sampleEnv sampleNow sampleStore "b" (by decide) (by decide)).2.2
      (by decide),
    ((revoke_unknown_serial sampleEnv sampleNow sampleStore "b" (by decide) (by decide)).2.1
      "crl").trans (by decide)⟩

/-- C4: the effect of a first, successful revocation. When `certs/<s>` holds a
record that decodes to `issued`, `revoked/<s>` does not exist and
`revokeSSHCertificate` succeeds, then afterwards `revoked/<s>` holds the encoding
of the record with the certificate and `valid_before` of `issued` and the current
UTC time as `revocation`; `certs/<s>` is unchanged, and so is every key other
than `revoked/<s>` and `crl`. -/
theorem revoke_fresh_effect (env : Env) (now : Time) (st : Storage) (s v : String)
    (issued : sshCertificate) (r : Response)
    (hr : st.read ("revoked/" ++ s) = none) (hc : st.read ("certs/" ++ s) = some v)
    (hd : env.DecodeJSON v = some issued)
    (hok : (revokeSSHCertificate env now st s).1 = .ok r) :
    (∃ bytes,
        env.EncodeJSON { ValidBefore := issued.ValidBefore, Certificate := issued.Certificate,
                         Revocation := now.UTC } = .ok bytes ∧
        (revokeSSHCertificate env now st s).2.read ("revoked/" ++ s) = some bytes) ∧
    (revokeSSHCertificate env now st s).2.read ("certs/" ++ s) = some v ∧
    (∀ k, k ≠ "revoked/" ++ s → k ≠ "crl" →
      (revokeSSHCertificate env now st s).2.read k = st.read k) := by
  rcases revoke_cases env now st s with ⟨_, herr | ⟨v1, c, hr1, _, _⟩⟩ |
    ⟨v1, issued1, bytes, hq, _, hc1, hd1, he⟩
  · obtain ⟨e, he⟩ := herr
    rw [he] at hok
    cases hok
  · rw [hr] at hr1
    cases hr1
  · rw [hc] at hc1
    injection hc1 with hv
    subst hv
    rw [hd] at hd1
    injection hd1 with hi
    subst hi
    rw [revoke_fresh env now st s v bytes issued hq hr hc hd he] at hok ⊢
    rcases buildCrl_cases env (afterRevokedPut st s bytes) with ⟨e, hbe, _⟩ |
      ⟨certs, hbo, _, hbd⟩
    · cases hb : buildCrl env (afterRevokedPut st s bytes) with
      | mk r1 st4 =>
        rw [hb] at hbe hok
        simp only at hbe
        subst hbe
        simp at hok
    · cases hb : buildCrl env (afterRevokedPut st s bytes) with
      | mk r1 st4 =>
        rw [hb] at hbo hbd
        simp only at hbo hbd
        subst hbo
        simp only
        have hread : ∀ k, k ≠ "crl" → st4.read k = (afterRevokedPut st s bytes).read k := by
          intro k hk
          simp only [Storage.read, hbd]
          exact kvGet_kvPut_ne _ _ _ _ hk
        refine ⟨⟨bytes, he, ?_⟩, ?_, ?_⟩
        · rw [hread _ (revoked_ne_crl s)]
          exact kvGet_kvPut_same _ _ _
        · rw [hread _ (certs_ne_crl s)]
          simp only [afterRevokedPut, Storage.read]
          rw [kvGet_kvPut_ne _ _ _ _ (certs_ne_revoked s s)]
          exact hc
        · intro k hk1 hk2
          rw [hread _ hk2]
          simp only [afterRevokedPut, Storage.read]
          exact kvGet_kvPut_ne _ _ _ _ hk1

/-- Witness for C4: the revocation of serial `a` on the sample store. -/
theorem revoke_fresh_effect_witness :
    (revokeSSHCertificate sampleEnv sampleNow sampleStore "a").1 = .ok sampleResponse ∧
    (revokeSSHCertificate sampleEnv sampleNow sampleStore "a").2.read ("certs/" ++ "a") =
      some "I:cert-a" :=
  ⟨by decide, (revoke_fresh_effect sampleEnv sampleNow sampleStore "a" "I:cert-a"
    (sampleIssued "cert-a") sampleResponse (by decide) (by decide) (by decide) (by decide)).2.1⟩

/-- C5: what a successful rebuild writes. When every serial listed under `revoked/`
has a record that decodes (their certificates being `certs`, in listing order) and
the storage calls go through, `buildCrl` succeeds and sets the `crl` record to
`certs` joined with a single newline, the empty string when nothing is listed,
and every other key keeps its value. -/
theorem buildCrl_writes_joined_certificates (env : Env) (st : Storage) (certs : List String)
    (hq : st.quiet)
    (h : (st.under "revoked/").map (revokedBlob env st) = certs.map some) :
    (buildCrl env st).1 = .ok () ∧
    (buildCrl env st).2.read "crl" = some (String.intercalate "\n" certs) ∧
    (st.under "revoked/" = [] → (buildCrl env st).2.read "crl" = some "") ∧
    (∀ k, k ≠ "crl" → (buildCrl env st).2.read k = st.read k) := by
  obtain ⟨hok, hdata⟩ := buildCrl_quiet env st hq certs h
  have hcrl : (buildCrl env st).2.read "crl" = some (String.intercalate "\n" certs) := by
    simp only [Storage.read, hdata]
    exact kvGet_kvPut_same _ _ _
  refine ⟨hok, hcrl, ?_, ?_⟩
  · intro hnil
    rw [hnil] at h
    cases certs with
    | nil => exact hcrl
    | cons c cs => simp at h
  · intro k hk
    simp only [Storage.read, hdata]
    exact kvGet_kvPut_ne _ _ _ _ hk

/-- Witness for C5: the rebuild over two revoked records. -/
theorem buildCrl_writes_joined_certificates_witness :
    sampleRevokedStore.under "revoked/" = ["a", "b"] ∧
    (buildCrl sampleEnv sampleRevokedStore).2.read "crl" = some "cert-a\ncert-b" :=
  ⟨by decide, (buildCrl_writes_joined_certificates sampleEnv sampleRevokedStore
    ["cert-a", "cert-b"] (by decide) (by decide)).2.1⟩

/-- C6, as stated, fails: on the storage left by a revocation whose rebuild failed
(serial `a` revoked, no `crl` record) the repeated revocation of `a` returns
success and leaves a CRL that lacks the blob of `a`. -/
theorem crl_completeness_counterexample :
    sampleLaggingStore.data = [("revoked/a", "R:cert-a"), ("certs/a", "I:cert-a")] ∧
    (revokeSSHCertificate sampleEnv sampleLater sampleLaggingStore "a").1 = .ok sampleResponse ∧
    ¬ CrlComplete sampleEnv (revokeSSHCertificate sampleEnv sampleLater sampleLaggingStore "a").2 := by
  refine ⟨by decide, by decide, ?_⟩
  intro h
  obtain ⟨body, hb, _⟩ := h "a" "cert-a" (by decide) (by decide)
  have hnone : (revokeSSHCertificate sampleEnv sampleLater sampleLaggingStore "a").2.read "crl"
      = none := by decide
  rw [hnone] at hb
  cases hb

/-- C6, amended: when `revokeSSHCertificate` returns success for a serial that was
not revoked before the call, or the CRL was complete before the call, then
afterwards the certificate blob of every record under `revoked/` (blobs without
newline) is one of the lines of the `crl` body. -/
theorem crl_complete_after_revocation (env : Env) (now : Time) (st : Storage) (s : String)
    (r : Response) (hok : (revokeSSHCertificate env now st s).1 = .ok r)
    (h : st.read ("revoked/" ++ s) = none ∨ CrlComplete env st) :
    CrlComplete env (revokeSSHCertificate env now st s).2 := by
  cases hr : st.read ("revoked/" ++ s) with
  | none => exact revoke_fresh_complete env now st s r hr hok
  | some v =>
    rcases h with h | h
    · rw [hr] at h
      cases h
    · exact crlComplete_congr env (revoke_existing_data env now st s v hr) h

/-- Witness for the amended C6: the first revocation of serial `a` on the sample store. -/
theorem crl_complete_after_revocation_witness :
    (revokeSSHCertificate sampleEnv sampleNow sampleStore "a").1 = .ok sampleResponse ∧
    CrlComplete sampleEnv (revokeSSHCertificate sampleEnv sampleNow sampleStore "a").2 :=
  ⟨by decide, crl_complete_after_revocation sampleEnv sampleNow sampleStore "a" sampleResponse
    (by decide) (Or.inl (by decide))⟩

/-- C7, as stated, fails twice over. Both sample stores have an empty revoked
namespace. On the first, two issued serials carry the same blob: after the
revocation of `a` the never revoked `b` has its blob on the CRL. On the second,
a `crl` record exists before any revocation and names the blob of the never
revoked `a`. -/
theorem crl_soundness_counterexample :
    (sampleTwinStore.under "revoked/" = [] ∧
      (revokeAll sampleEnv sampleTwinStore [(sampleNow, "a", [])]).read "certs/b" =
        some "I:cert-x" ∧
      sampleEnv.DecodeJSON "I:cert-x" = some (sampleIssued "cert-x") ∧
      (revokeAll sampleEnv sampleTwinStore [(sampleNow, "a", [])]).read "revoked/b" = none ∧
      (revokeAll sampleEnv sampleTwinStore [(sampleNow, "a", [])]).read "crl" = some "cert-x" ∧
      (sampleIssued "cert-x").Certificate ∈ crlLines "cert-x") ∧
    (sampleStaleStore.under "revoked/" = [] ∧
      (revokeAll sampleEnv sampleStaleStore []).read "certs/a" = some "I:cert-a" ∧
      sampleEnv.DecodeJSON "I:cert-a" = some (sampleIssued "cert-a") ∧
      (revokeAll sampleEnv sampleStaleStore []).read "revoked/a" = none ∧
      (revokeAll sampleEnv sampleStaleStore []).read "crl" = some "cert-a" ∧
      (sampleIssued "cert-a").Certificate ∈ crlLines "cert-a") := by
  decide

/-- C7, amended: in every storage state reached by revocations from a state with
no `crl` record, a `crl` body is the newline-join of certificate blobs of records
under `revoked/`; hence the blob of an issued, never revoked certificate
`certs/<s>` is not a line of the `crl` body, provided it is not a line of the blob
of any revoked record (for blobs without newline: it differs from each of them). -/
theorem crl_sound_after_revocations (env : Env) (st0 : Storage)
    (calls : List (Time × String × List (Option String))) (body : String)
    (h0 : st0.read "crl" = none)
    (hbody : (revokeAll env st0 calls).read "crl" = some body) :
    (∃ certs, certs ≠ [] ∧ body = String.intercalate "\n" certs ∧
      ∀ b ∈ certs, ∃ k, revokedBlob env (revokeAll env st0 calls) k = some b) ∧
    (∀ s v c, (revokeAll env st0 calls).read ("certs/" ++ s) = some v →
      env.DecodeJSON v = some c →
      (revokeAll env st0 calls).read ("revoked/" ++ s) = none →
      (∀ k b, revokedBlob env (revokeAll env st0 calls) k = some b →
        c.Certificate ∉ crlLines b) →
      c.Certificate ∉ crlLines body) := by
  have hinit : CrlSound env st0 := by
    intro b hb
    rw [h0] at hb
    cases hb
  obtain ⟨certs, hne, hjoin, hall⟩ := crlSound_revokeAll env st0 calls hinit body hbody
  refine ⟨⟨certs, hne, hjoin, hall⟩, ?_⟩
  intro s v c _ _ _ hdiff hmem
  rw [hjoin, mem_crlLines_intercalate certs hne] at hmem
  obtain ⟨b, hb, hline⟩ := hmem
  obtain ⟨k, hk⟩ := hall b hb
  exact hdiff k b hk hline

/-- Witness for the amended C7: after the revocation of `a` on the store with
serials `a` and `b`, the blob of the never revoked `b` is not on the CRL. -/
theorem crl_sound_after_revocations_witness :
    (revokeAll sampleEnv { sampleTwoStore with faults := [] } [(sampleNow, "a", [])]).read "crl" =
      some "cert-a" ∧
    "cert-b" ∉ crlLines "cert-a" :=
  ⟨by decide, (crl_sound_after_revocations sampleEnv { sampleTwoStore with faults := [] }
    [(sampleNow, "a", [])] "cert-a" (by decide) (by decide)).2 "b" "I:cert-b"
    (sampleIssued "cert-b") (by decide) (by decide) (by decide) (by
      intro k b hk
      have hb : b = "cert-a" := by
        have hsome : ((revokeAll sampleEnv { sampleTwoStore with faults := [] }
            [(sampleNow, "a", [])]).read ("revoked/" ++ k)).isSome := by
          cases hrd : (revokeAll sampleEnv { sampleTwoStore with faults := [] }
              [(sampleNow, "a", [])]).read ("revoked/" ++ k) with
          | none => simp [revokedBlob, hrd] at hk
          | some w => rfl
        have hmem := (Storage.mem_under _ "revoked/" k).2 hsome
        have hlist : (revokeAll sampleEnv { sampleTwoStore with faults := [] }
            [(sampleNow, "a", [])]).under "revoked/" = ["a"] := by decide
        rw [hlist, List.mem_singleton] at hmem
        subst hmem
        have hval : revokedBlob sampleEnv (revokeAll sampleEnv
            { sampleTwoStore with faults := [] } [(sampleNow, "a", [])]) "a" = some "cert-a" := by
          decide
        rw [hval] at hk
        injection hk with hk
        exact hk.symm
      subst hb
      decide)⟩

/-- C8: the rebuild is all-or-nothing. When some serial listed under `revoked/`
has no record or a record that does not decode, `buildCrl` returns an error and
writes nothing: every key, `crl` included, keeps its value or stays absent. -/
theorem buildCrl_all_or_nothing (env : Env) (st : Storage) (serial : String)
    (hk : serial ∈ st.under "revoked/") (hbad : revokedBlob env st serial = none) :
    (∃ e, (buildCrl env st).1 = .error e) ∧
    (∀ k, (buildCrl env st).2.read k = st.read k) := by
  obtain ⟨e, he, hdata⟩ := buildCrl_undecodable env st ⟨serial, hk, hbad⟩
  exact ⟨⟨e, he⟩, fun k => by simp only [Storage.read, hdata]⟩

/-- Witness for C8: the rebuild over a corrupt record fails and keeps the old `crl`. -/
theorem buildCrl_all_or_nothing_witness :
    (buildCrl sampleEnv sampleCorruptStore).1 =
      .error (.internal "Unable to decode entry for SSH certificate serial b") ∧
    (buildCrl sampleEnv sampleCorruptStore).2.read "crl" = some "cert-a" :=
  ⟨by decide, ((buildCrl_all_or_nothing sampleEnv sampleCorruptStore "b" (by decide)
    (by decide)).2 "crl").trans (by decide)⟩

/-- C9: a revocation is not rolled back when the rebuild fails. When `certs/<s>`
decodes, `revoked/<s>` does not exist, the two reads and the write of the revoked
record go through, and `buildCrl` then fails with `e`, `revokeSSHCertificate`
returns the error `e` and `revoked/<s>` stays stored with its record, revocation
time included. -/
theorem revoke_not_rolled_back (env : Env) (now : Time) (st : Storage) (s v bytes : String)
    (issued : sshCertificate) (e : Error) (hq : st.quietFor 3)
    (hr : st.read ("revoked/" ++ s) = none) (hc : st.read ("certs/" ++ s) = some v)
    (hd : env.DecodeJSON v = some issued)
    (he : env.EncodeJSON { issued with Revocation := now.UTC } = .ok bytes)
    (hb : (buildCrl env (afterRevokedPut st s bytes)).1 = .error e) :
    (revokeSSHCertificate env now st s).1 = .error e ∧
    (revokeSSHCertificate env now st s).2.read ("revoked/" ++ s) = some bytes :=
  revoke_fresh_rebuild_error env now st s v bytes issued e hq hr hc hd he hb

/-- Witness for C9: the `crl` write fails after the revoked record of `a` was stored. -/
theorem revoke_not_rolled_back_witness :
    (revokeSSHCertificate sampleEnv sampleNow sampleFailingStore "a").1 =
      .error (.internal "Error storing CRL: disk full") ∧
    (revokeSSHCertificate sampleEnv sampleNow sampleFailingStore "a").2.read ("revoked/" ++ "a") =
      some "R:cert-a" :=
  revoke_not_rolled_back sampleEnv sampleNow sampleFailingStore "a" "I:cert-a" "R:cert-a"
    (sampleIssued "cert-a") _ (by decide) (by decide) (by decide) (by decide) (by decide)
    (by decide)

/-- C10, as stated, fails: the revocation of `a` stores `revoked/a` and fails on the
`crl` write; the retry, on a storage that no longer fails, returns success and
leaves no `crl` record at all, so the blob of `a` is not on the CRL. -/
theorem retry_repairs_crl_counterexample :
    (revokeSSHCertificate sampleEnv sampleNow sampleFailingStore "a").1 =
      .error (.internal "Error storing CRL: disk full") ∧
    sampleLaggingStore.read "revoked/a" = some "R:cert-a" ∧
    sampleLaggingStore.faults = [] ∧
    (revokeSSHCertificate sampleEnv sampleLater sampleLaggingStore "a").1 = .ok sampleResponse ∧
    (revokeSSHCertificate sampleEnv sampleLater sampleLaggingStore "a").2.read "crl" = none := by
  decide

/-- C10, amended: after a revocation of `s` that stored `revoked/<s>` and failed in
the rebuild, a later revocation of the same `s` takes the already-revoked path and
writes nothing, so the `crl` record stays as the failed call left it; the blob of
`s` (without newline) is on the CRL after the next successful revocation of a
serial `t` that was not yet revoked, which rebuilds the CRL. -/
theorem retry_writes_nothing_next_revocation_repairs (env : Env) (now now2 now3 : Time)
    (st : Storage) (s v bytes t : String) (issued : sshCertificate) (e : Error)
    (fs : List (Option String)) (hq : st.quietFor 3)
    (hr : st.read ("revoked/" ++ s) = none) (hc : st.read ("certs/" ++ s) = some v)
    (hd : env.DecodeJSON v = some issued)
    (he : env.EncodeJSON { issued with Revocation := now.UTC } = .ok bytes)
    (hb : (buildCrl env (afterRevokedPut st s bytes)).1 = .error e) :
    (revokeSSHCertificate env now st s).1 = .error e ∧
    (∀ k, (revokeSSHCertificate env now2
        { data := (revokeSSHCertificate env now st s).2.data, faults := fs } s).2.read k =
      (revokeSSHCertificate env now st s).2.read k) ∧
    (∀ st2 c r, st2.data = (revokeSSHCertificate env now st s).2.data →
      env.DecodeJSON bytes = some c → Char.ofNat 10 ∉ c.Certificate.data →
      st2.read ("revoked/" ++ t) = none →
      (revokeSSHCertificate env now3 st2 t).1 = .ok r →
      ∃ body, (revokeSSHCertificate env now3 st2 t).2.read "crl" = some body ∧
        c.Certificate ∈ crlLines body) := by
  obtain ⟨herr, hstored⟩ := revoke_fresh_rebuild_error env now st s v bytes issued e hq hr hc hd
    he hb
  refine ⟨herr, ?_, ?_⟩
  · intro k
    have := revoke_existing_data env now2
      { data := (revokeSSHCertificate env now st s).2.data, faults := fs } s bytes hstored
    simp only [Storage.read, this]
  · intro st2 c r hdata hdec hnl ht hok
    have hs2 : st2.read ("revoked/" ++ s) = some bytes := by
      simpa only [Storage.read, hdata] using hstored
    have hne : "revoked/" ++ s ≠ "revoked/" ++ t := by
      intro h
      rw [h, ht] at hs2
      cases hs2
    have hfin : (revokeSSHCertificate env now3 st2 t).2.read ("revoked/" ++ s) = some bytes := by
      rw [revoke_frame env now3 st2 t _ hne (revoked_ne_crl s)]
      exact hs2
    have hblob : revokedBlob env (revokeSSHCertificate env now3 st2 t).2 s
        = some c.Certificate := by
      simp [revokedBlob, hfin, hdec]
    exact revoke_fresh_complete env now3 st2 t r ht hok s c.Certificate hblob hnl

/-- Witness for the amended C10: on the store with serials `a` and `b`, the `crl`
write of the revocation of `a` fails, and the later revocation of `b` puts both
blobs on the CRL. -/
theorem retry_writes_nothing_next_revocation_repairs_witness :
    (revokeSSHCertificate sampleEnv sampleNow sampleTwoStore "a").1 =
      .error (.internal "Error storing CRL: disk full") ∧
    (revokeSSHCertificate sampleEnv sampleNow
      (revokeSSHCertificate sampleEnv sampleNow sampleTwoStore "a").2 "b").2.read "crl" =
      some "cert-b\ncert-a" ∧
    ∃ body, (revokeSSHCertificate sampleEnv sampleNow
        (revokeSSHCertificate sampleEnv sampleNow sampleTwoStore "a").2 "b").2.read "crl" =
          some body ∧ "cert-a" ∈ crlLines body :=
  ⟨by decide, by decide,
    (retry_writes_nothing_next_revocation_repairs sampleEnv sampleNow sampleLater sampleNow
      sampleTwoStore "a" "I:cert-a" "R:cert-a" "b" (sampleIssued "cert-a")
      (.internal "Error storing CRL: disk full") [] (by decide)
      (by decide) (by decide) (by decide) (by decide) (by decide)).2.2
      (revokeSSHCertificate sampleEnv sampleNow sampleTwoStore "a").2
      { sampleIssued "cert-a" with Revocation := sampleNow.UTC } sampleResponse rfl (by decide)
      (by decide) (by decide) (by decide)⟩

/-- C11: the TTL clamp invariant. Whenever `pathRoleCreate` stores a role (any `ttl`
and `max_ttl` strings, any system default and system maximum), the record under
`role/<name>` is the encoding of a role whose `ttl` and `max_ttl` parse back
(`time.ParseDuration` inverting `Duration.String`) to durations `t` and `m` with
`t ≤ m ≤` the system maximum lease TTL. -/
theorem role_ttl_clamp (renv : RoleEnv) (sys : SystemView) (st : Storage) (data : RoleFields)
    (hrt : ∀ d, renv.ParseDuration (renv.DurationString d) = .ok d)
    (hok : (pathRoleCreate renv sys st data).1 = .ok none) :
    ∃ role bytes t m, renv.EncodeRole role = .ok bytes ∧
      (pathRoleCreate renv sys st data).2.read ("role/" ++ data.name) = some bytes ∧
      renv.ParseDuration role.TTL = .ok t ∧ renv.ParseDuration role.MaxTTL = .ok m ∧
      t ≤ m ∧ m ≤ sys.MaxLeaseTTL := by
  obtain ⟨t, m, bytes, _, hle, htm, _, henc, hres⟩ := pathRoleCreate_ok_inv renv sys st data hok
  refine ⟨storedRole renv data t m, bytes, t, m, henc, ?_, hrt t, hrt m, htm, hle⟩
  rw [hres]
  exact kvGet_kvPut_same _ _ _

/-- Witness for C11: the role `testing` created with `ttl` 2h and no `max_ttl` on a
mount with a default of a day and a maximum of two days. -/
theorem role_ttl_clamp_witness :
    (pathRoleCreate sampleRoleEnv sampleSys emptyStore (sampleFields "2h0m0s" "")).2.read
        "role/testing" = some "testing ttl=2h0m0s max_ttl=48h0m0s" ∧
    ∃ role bytes t m, sampleRoleEnv.EncodeRole role = .ok bytes ∧
      (pathRoleCreate sampleRoleEnv sampleSys emptyStore (sampleFields "2h0m0s" "")).2.read
        ("role/" ++ (sampleFields "2h0m0s" "").name) = some bytes ∧
      sampleRoleEnv.ParseDuration role.TTL = .ok t ∧
      sampleRoleEnv.ParseDuration role.MaxTTL = .ok m ∧ t ≤ m ∧ m ≤ sampleSys.MaxLeaseTTL :=
  ⟨by decide, role_ttl_clamp sampleRoleEnv sampleSys emptyStore (sampleFields "2h0m0s" "")
    sampleDuration_roundtrip (by decide)⟩

/-- C12: the bound on `max_ttl`. A request whose `max_ttl` is supplied and parses to
a duration above the system maximum lease TTL gets the validation error response
and leaves the storage as it was; and when `max_ttl` is omitted, a role that gets
stored carries the system maximum lease TTL as its `max_ttl`. -/
theorem role_max_ttl_bound (renv : RoleEnv) (sys : SystemView) (st : Storage)
    (data : RoleFields) :
    (∀ d, data.max_ttl ≠ "" → renv.ParseDuration data.max_ttl = .ok d →
      d > sys.MaxLeaseTTL →
      pathRoleCreate renv sys st data =
        (.ok (some (ErrorResponse "Requested max TTL is higher than backend maximum")), st)) ∧
    (data.max_ttl = "" → (pathRoleCreate renv sys st data).1 = .ok none →
      ∃ role bytes, renv.EncodeRole role = .ok bytes ∧
        (pathRoleCreate renv sys st data).2.read ("role/" ++ data.name) = some bytes ∧
        role.MaxTTL = renv.DurationString sys.MaxLeaseTTL) := by
  constructor
  · intro d h1 h2 hgt
    exact pathRoleCreate_max_too_high renv sys st data d (Or.inr ⟨h1, h2⟩) hgt
  · intro hempty hok
    obtain ⟨t, m, bytes, hm, _, _, _, henc, hres⟩ := pathRoleCreate_ok_inv renv sys st data hok
    have hmeq : m = sys.MaxLeaseTTL := by
      rcases hm with ⟨_, h⟩ | ⟨h, _⟩
      · exact h
      · exact absurd hempty h
    refine ⟨storedRole renv data t m, bytes, henc, ?_, by rw [hmeq]; rfl⟩
    rw [hres]
    exact kvGet_kvPut_same _ _ _

/-- Witness for C12: a `max_ttl` of four days (in nanoseconds) is refused on the
sample mount, nothing is stored; with `max_ttl` omitted the stored `max_ttl` is
the mount's two days. -/
theorem role_max_ttl_bound_witness :
    pathRoleCreate sampleRoleEnv sampleSys emptyStore (sampleFields "" "345600000000000ns") =
      (.ok (some (ErrorResponse "Requested max TTL is higher than backend maximum")),
        emptyStore) ∧
    ∃ role bytes, sampleRoleEnv.EncodeRole role = .ok bytes ∧
      (pathRoleCreate sampleRoleEnv sampleSys emptyStore (sampleFields "2h0m0s" "")).2.read
        ("role/" ++ (sampleFields "2h0m0s" "").name) = some bytes ∧
      role.MaxTTL = sampleRoleEnv.DurationString sampleSys.MaxLeaseTTL :=
  ⟨(role_max_ttl_bound sampleRoleEnv sampleSys emptyStore
      (sampleFields "" "345600000000000ns")).1 345600000000000 (by decide) (by decide)
      (by decide),
    (role_max_ttl_bound sampleRoleEnv sampleSys emptyStore (sampleFields "2h0m0s" "")).2
      (by decide) (by decide)⟩

/-- C13: how `ttl` is resolved once `max_ttl` is acceptable (`m`, at most the system
maximum). (1) A supplied `ttl` that parses to more than `m` gets the validation
error response and nothing is written. (2) An omitted `ttl` with a system default
above `m` is stored as `m`. (3) A supplied `ttl` that parses to at most `m`, so
also one equal to `m`, is stored as supplied. (4) An omitted `ttl` with a system
default of at most `m` is stored as the system default. In (2)-(4) the call
succeeds as soon as the entry encodes and the storage write goes through. -/
theorem role_ttl_resolution (renv : RoleEnv) (sys : SystemView) (st : Storage)
    (data : RoleFields) (m : Int) (hm : ResolvesMaxTTL renv sys data m)
    (hle : m ≤ sys.MaxLeaseTTL) :
    (∀ t, data.ttl ≠ "" → renv.ParseDuration data.ttl = .ok t → t > m →
      pathRoleCreate renv sys st data =
        (.ok (some (ErrorResponse
          "\"ttl\" value must be less than \"max_ttl\" and/or backend default max lease TTL value")),
          st)) ∧
    (∀ bytes, data.ttl = "" → sys.DefaultLeaseTTL > m →
      renv.EncodeRole (storedRole renv data m m) = .ok bytes → st.nextFault = none →
      pathRoleCreate renv sys st data = (.ok none,
          { data := kvPut st.data ("role/" ++ data.name) bytes, faults := st.faults.tail }) ∧
        (storedRole renv data m m).TTL = renv.DurationString m) ∧
    (∀ t bytes, data.ttl ≠ "" → renv.ParseDuration data.ttl = .ok t → t ≤ m →
      renv.EncodeRole (storedRole renv data t m) = .ok bytes → st.nextFault = none →
      pathRoleCreate renv sys st data = (.ok none,
          { data := kvPut st.data ("role/" ++ data.name) bytes, faults := st.faults.tail }) ∧
        (storedRole renv data t m).TTL = renv.DurationString t) ∧
    (∀ bytes, data.ttl = "" → sys.DefaultLeaseTTL ≤ m →
      renv.EncodeRole (storedRole renv data sys.DefaultLeaseTTL m) = .ok bytes →
      st.nextFault = none →
      pathRoleCreate renv sys st data = (.ok none,
          { data := kvPut st.data ("role/" ++ data.name) bytes, faults := st.faults.tail }) ∧
        (storedRole renv data sys.DefaultLeaseTTL m).TTL =
          renv.DurationString sys.DefaultLeaseTTL) := by
  refine ⟨?_, ?_, ?_, ?_⟩
  · intro t h1 h2 hgt
    rw [pathRoleCreate_resolved renv sys st data t m hm hle (Or.inr ⟨h1, h2⟩), if_pos hgt,
      if_neg h1]
  · intro bytes h1 hgt henc hf
    refine ⟨?_, rfl⟩
    rw [pathRoleCreate_resolved renv sys st data sys.DefaultLeaseTTL m hm hle
      (Or.inl ⟨h1, rfl⟩), if_pos hgt, if_pos h1, henc]
    simp only [hf]
  · intro t bytes h1 h2 htm henc hf
    refine ⟨?_, rfl⟩
    rw [pathRoleCreate_resolved renv sys st data t m hm hle (Or.inr ⟨h1, h2⟩),
      if_neg (not_lt.2 htm), henc]
    simp only [hf]
  · intro bytes h1 htm henc hf
    refine ⟨?_, rfl⟩
    rw [pathRoleCreate_resolved renv sys st data sys.DefaultLeaseTTL m hm hle
      (Or.inl ⟨h1, rfl⟩), if_neg (not_lt.2 htm), henc]
    simp only [hf]

/-- Witness for C13 on the sample mount (default a day, maximum two days): with a
`max_ttl` of 2h a `ttl` of a day is refused, an omitted `ttl` is stored as 2h and
a `ttl` of 2h, equal to `max_ttl`, is stored as it is. -/
theorem role_ttl_resolution_witness :
    pathRoleCreate sampleRoleEnv sampleSys emptyStore (sampleFields "24h0m0s" "2h0m0s") =
      (.ok (some (ErrorResponse
        "\"ttl\" value must be less than \"max_ttl\" and/or backend default max lease TTL value")),
        emptyStore) ∧
    pathRoleCreate sampleRoleEnv sampleSys emptyStore (sampleFields "" "2h0m0s") = (.ok none,
      { data := [("role/testing", "testing ttl=2h0m0s max_ttl=2h0m0s")], faults := [] }) ∧
    pathRoleCreate sampleRoleEnv sampleSys emptyStore (sampleFields "2h0m0s" "2h0m0s") =
      (.ok none,
        { data := [("role/testing", "testing ttl=2h0m0s max_ttl=2h0m0s")], faults := [] }) :=
  ⟨(role_ttl_resolution sampleRoleEnv sampleSys emptyStore (sampleFields "24h0m0s" "2h0m0s")
      hours2 (by decide) (by decide)).1 hours24 (by decide) (by decide) (by decide),
    ((role_ttl_resolution sampleRoleEnv sampleSys emptyStore (sampleFields "" "2h0m0s")
      hours2 (by decide) (by decide)).2.1 "testing ttl=2h0m0s max_ttl=2h0m0s" (by decide)
      (by decide) (by decide) (by decide)).1,
    ((role_ttl_resolution sampleRoleEnv sampleSys emptyStore (sampleFields "2h0m0s" "2h0m0s")
      hours2 (by decide) (by decide)).2.2.1 hours2 "testing ttl=2h0m0s max_ttl=2h0m0s"
      (by decide) (by decide) (by decide) (by decide) (by decide)).1⟩

/-- C14, as stated, fails: on the sample mount (default a day, maximum two days) a
role created without `ttl` and without `max_ttl` is stored with the system default
of a day as its `ttl`, not with its `max_ttl` of two days. -/
theorem role_ttl_default_counterexample :
    pathRoleCreate sampleRoleEnv sampleSys emptyStore (sampleFields "" "") = (.ok none,
      { data := [("role/testing", "testing ttl=24h0m0s max_ttl=48h0m0s")], faults := [] }) ∧
    sampleRoleEnv.DecodeRole "testing ttl=24h0m0s max_ttl=48h0m0s" =
      .ok (sampleRole "24h0m0s" "48h0m0s") ∧
    (sampleRole "24h0m0s" "48h0m0s").TTL ≠ (sampleRole "24h0m0s" "48h0m0s").MaxTTL := by
  decide

/-- C14, amended: the role `ttl` defaults to the system default lease TTL, cut to
`max_ttl` when it exceeds it. For every `pathRoleCreate` that omits `ttl` and
stores a role, the stored `max_ttl` is the canonical string of the resolved
`max_ttl` `m` and the stored `ttl` that of the smaller of the system default and
`m`; so the stored `ttl` equals the stored `max_ttl` when the system default is at
least `m`. -/
theorem role_ttl_default_is_capped_system_default (renv : RoleEnv) (sys : SystemView)
    (st : Storage) (data : RoleFields) (httl : data.ttl = "")
    (hok : (pathRoleCreate renv sys st data).1 = .ok none) :
    ∃ role bytes m, ResolvesMaxTTL renv sys data m ∧ renv.EncodeRole role = .ok bytes ∧
      (pathRoleCreate renv sys st data).2.read ("role/" ++ data.name) = some bytes ∧
      role.MaxTTL = renv.DurationString m ∧
      role.TTL = renv.DurationString (min sys.DefaultLeaseTTL m) ∧
      (m ≤ sys.DefaultLeaseTTL → role.TTL = role.MaxTTL) := by
  obtain ⟨t, m, bytes, hm, _, _, ht, henc, hres⟩ := pathRoleCreate_ok_inv renv sys st data hok
  have hteq : t = min sys.DefaultLeaseTTL m := by
    rcases ht with ⟨_, h⟩ | ⟨h, _⟩
    · exact h
    · exact absurd httl h
  refine ⟨storedRole renv data t m, bytes, m, hm, henc, ?_, rfl, by rw [hteq]; rfl, ?_⟩
  · rw [hres]
    exact kvGet_kvPut_same _ _ _
  · intro hle
    have : t = m := by rw [hteq]; exact min_eq_right hle
    rw [this]
    rfl

/-- Witness for the amended C14 on the sample mount (default a day, maximum two
days): with `ttl` omitted, a role without `max_ttl` is stored with a `ttl` of a
day, and a role with a `max_ttl` of 2h with a `ttl` of 2h. -/
theorem role_ttl_default_is_capped_system_default_witness :
    (pathRoleCreate sampleRoleEnv sampleSys emptyStore (sampleFields "" "")).2.read
        "role/testing" = some "testing ttl=24h0m0s max_ttl=48h0m0s" ∧
    (pathRoleCreate sampleRoleEnv sampleSys emptyStore (sampleFields "" "2h0m0s")).2.read
        "role/testing" = some "testing ttl=2h0m0s max_ttl=2h0m0s" ∧
    (∃ role bytes m, ResolvesMaxTTL sampleRoleEnv sampleSys (sampleFields "" "") m ∧
      sampleRoleEnv.EncodeRole role = .ok bytes ∧
      (pathRoleCreate sampleRoleEnv sampleSys emptyStore (sampleFields "" "")).2.read
        ("role/" ++ (sampleFields "" "").name) = some bytes ∧
      role.MaxTTL = sampleRoleEnv.DurationString m ∧
      role.TTL = sampleRoleEnv.DurationString (min sampleSys.DefaultLeaseTTL m) ∧
      (m ≤ sampleSys.DefaultLeaseTTL → role.TTL = role.MaxTTL)) :=
  ⟨by decide, by decide,
    role_ttl_default_is_capped_system_default sampleRoleEnv sampleSys emptyStore
      (sampleFields "" "") (by decide) (by decide)⟩

/-- C15: the create/read round trip of a role. After a `pathRoleCreate` that stored
the role `data.name`, the stored `ttl` and `max_ttl` are canonical duration
strings of durations `t ≤ m`, non-empty and different from the placeholders, and
a following `pathRoleRead` (the role codec round-tripping, the storage read going
through) returns them as they are stored, with the other fields as supplied and
the two default maps converted to strings. And `pathRoleRead` of a name with no
stored role returns no role and no error. -/
theorem role_create_read_roundtrip (renv : RoleEnv) (sys : SystemView) (st st1 : Storage)
    (data : RoleFields)
    (hcodec : ∀ r b, renv.EncodeRole r = .ok b → renv.DecodeRole b = .ok r)
    (hcanon : ∀ d, renv.DurationString d ≠ "" ∧ renv.DurationString d ≠ "(system default)" ∧
      renv.DurationString d ≠ "(system default, capped to role max)")
    (hok : (pathRoleCreate renv sys st data).1 = .ok none)
    (hst1 : st1.data = (pathRoleCreate renv sys st data).2.data)
    (hf : st1.nextFault = none) :
    (∃ t m, t ≤ m ∧
      (pathRoleRead renv st1 data.name).1 = .ok (some { Data :=
        [("max_ttl", .str (renv.DurationString m)),
         ("ttl", .str (renv.DurationString t)),
         ("default_critical_options",
            .strMap (convertMapToStringValue renv data.default_critical_options)),
         ("default_extensions", .strMap (convertMapToStringValue renv data.default_extensions)),
         ("allowed_critical_options", .str data.allowed_critical_options),
         ("allowed_extensions", .str data.allowed_extensions),
         ("allow_user_certificates", .bool data.allow_user_certificates),
         ("allow_host_certificates", .bool data.allow_host_certificates),
         ("allowed_valid_principals", .str data.allowed_valid_principals),
         ("allow_bare_domains", .bool data.allow_bare_domains),
         ("allow_subdomains", .bool data.allow_subdomains)] }) ∧
      renv.DurationString t ∉ ["", "(system default)", "(system default, capped to role max)"] ∧
      renv.DurationString m ∉ ["", "(system default)", "(system default, capped to role max)"]) ∧
    (∀ (st2 : Storage) (n : String), st2.read ("role/" ++ n) = none → st2.nextFault = none →
      (pathRoleRead renv st2 n).1 = .ok none ∧ (pathRoleRead renv st2 n).2.data = st2.data) := by
  constructor
  · obtain ⟨t, m, bytes, _, _, htm, _, henc, hres⟩ := pathRoleCreate_ok_inv renv sys st data hok
    have hread : st1.read ("role/" ++ data.name) = some bytes := by
      rw [hres] at hst1
      simp only [Storage.read, hst1]
      exact kvGet_kvPut_same _ _ _
    have hdec := hcodec _ _ henc
    obtain ⟨ht1, ht2, ht3⟩ := hcanon t
    obtain ⟨hm1, hm2, hm3⟩ := hcanon m
    have hmlen : ¬ (renv.DurationString m).length = 0 :=
      fun h => hm1 ((length_eq_zero_iff _).1 h)
    have htlen : ¬ (renv.DurationString t).length = 0 :=
      fun h => ht1 ((length_eq_zero_iff _).1 h)
    refine ⟨t, m, htm, ?_, ?_, ?_⟩
    · simp [pathRoleRead, getRole, Storage.Get_quiet hf, hread, hdec, storedRole, hmlen, htlen,
        structsMap]
    · simp [ht1, ht2, ht3]
    · simp [hm1, hm2, hm3]
  · intro st2 n hr hf2
    simp [pathRoleRead, getRole, Storage.Get_quiet hf2, hr]

/-- Witness for C15: the role `testing` is created with `ttl` 2h on the sample
mount and read back. -/
theorem role_create_read_roundtrip_witness :
    (pathRoleRead sampleRoleEnv
        (pathRoleCreate sampleRoleEnv sampleSys emptyStore (sampleFields "2h0m0s" "")).2
        "testing").1 =
      .ok (some { Data :=
        [("max_ttl", .str "48h0m0s"),
         ("ttl", .str "2h0m0s"),
         ("default_critical_options", .strMap [("force-command", "/bin/true")]),
         ("default_extensions", .strMap [("permit-pty", "true")]),
         ("allowed_critical_options", .str ""),
         ("allowed_extensions", .str ""),
         ("allow_user_certificates", .bool true),
         ("allow_host_certificates", .bool true),
         ("allowed_valid_principals", .str "dummy"),
         ("allow_bare_domains", .bool false),
         ("allow_subdomains", .bool false)] }) ∧
    (pathRoleRead sampleRoleEnv emptyStore "testing").1 = .ok none :=
  ⟨by decide,
    ((role_create_read_roundtrip sampleRoleEnv sampleSys emptyStore
      (pathRoleCreate sampleRoleEnv sampleSys emptyStore (sampleFields "2h0m0s" "")).2
      (sampleFields "2h0m0s" "") sampleRole_roundtrip sampleDuration_not_placeholder
      (by decide) rfl (by decide)).2 emptyStore "testing" (by decide) (by decide)).1⟩

/-- C16: lease-expiry revocation is the revoke endpoint. For a non-empty serial `s`,
`secretCredsRevoke` on a secret whose internal data carries `serial_number = s`
returns what `pathRevokeWrite` returns for `serial_number = s`, response or
error, and leaves the same storage. Without a secret, or without
`serial_number` in the secret's internal data, `secretCredsRevoke` returns an
error and the storage is the one it was given. -/
theorem secret_revoke_is_path_revoke (env : Env) (now : Time) (st : Storage) (s : String)
    (sec : Secret) (hs : s ≠ "")
    (hsec : sec.InternalData.lookup "serial_number" = some (.str s)) :
    secretCredsRevoke env now st (some sec) =
      (.returned (pathRevokeWrite env now st s).1, (pathRevokeWrite env now st s).2) ∧
    secretCredsRevoke env now st none =
      (.returned (.error (.plain "secret is nil in request")), st) ∧
    (∀ sec1 : Secret, sec1.InternalData.lookup "serial_number" = none →
      secretCredsRevoke env now st (some sec1) =
        (.returned (.error (.plain "could not find signed key in internal secret data")), st)) := by
  have hlen : ¬ s.length = 0 := fun h => hs ((length_eq_zero_iff s).1 h)
  refine ⟨?_, rfl, ?_⟩
  · simp only [secretCredsRevoke, hsec, pathRevokeWrite, hlen, if_false]
  · intro sec1 h1
    simp only [secretCredsRevoke, h1]

/-- Witness for C16: the lease of serial `a` expires on the sample store. -/
theorem secret_revoke_is_path_revoke_witness :
    (pathRevokeWrite sampleEnv sampleNow sampleStore "a").1 = .ok sampleResponse ∧
    secretCredsRevoke sampleEnv sampleNow sampleStore (some sampleSecret) =
      (.returned (pathRevokeWrite sampleEnv sampleNow sampleStore "a").1,
        (pathRevokeWrite sampleEnv sampleNow sampleStore "a").2) :=
  ⟨by decide, (secret_revoke_is_path_revoke sampleEnv sampleNow sampleStore "a" sampleSecret
    (by decide) (by decide)).1⟩

/-- C18 does not hold of the code: on a storage without a `crl` record (nothing was
ever revoked) `pathFetchCrl` reads the field `Value` of the nil entry that
`Storage.Get` returns and crashes, it returns neither a response nor an error.
When the record exists, the call returns its bytes as the body, with content
type `text/plain` and status 200, and the storage keeps its data. -/
theorem fetch_crl_without_record_crashes :
    emptyStore.read "crl" = none ∧
    pathFetchCrl emptyStore =
      (.crashed "invalid memory address or nil pointer dereference", emptyStore) ∧
    (pathFetchCrl sampleRevokedStore).1 =
      .returned (.ok { Data := [("http_content_type", .str "text/plain"),
                                ("http_raw_body", .bytes "stale"),
                                ("http_status_code", .int 200)] }) ∧
    (pathFetchCrl sampleRevokedStore).2.data = sampleRevokedStore.data := by
  decide

end Vault
